import Mathlib

/-!
Light sensor firmware (C8051F005, Keil C51): embedding of `light-sensor.c`.

The target compiler has a 16-bit `int`, a 32-bit `long` and an 8-bit
`unsigned char`.  Values are carried as `Int`/`Nat` and every C operation
whose result is stored in a machine integer is followed by the reduction to
that width (`wrap16`, `wrap32`, `% 256`).
-/

namespace LightSensor

/-! ## Machine integers -/

/-- Two's-complement value of the low 16 bits: what a 16-bit `int` holds. -/
def wrap16 (x : Int) : Int := (x + 32768) % 65536 - 32768

/-- Two's-complement value of the low 32 bits: what a 32-bit `long` holds. -/
def wrap32 (x : Int) : Int := (x + 2147483648) % 4294967296 - 2147483648

/-- Values of the 16-bit `int` type. -/
def isInt16 (x : Int) : Prop := -32768 ≤ x ∧ x ≤ 32767

instance (x : Int) : Decidable (isInt16 x) := by unfold isInt16; infer_instance

/-! ## Global constants (`#define`s, lines 57-72) -/

def CALIB_MIN : Nat := 1
def CALIB_MAX : Nat := 2
def SAMPLE_DELAY : Nat := 50
def INT_DEC : Int := 256
def MIN_LIGHT : Int := 610
def MAX_LIGHT : Int := 4095

/-! ## Program state -/

/-- Globals, the statics of `vADC0_ISR`, and the port/SFR bits the program
writes.  `calibrations` is a ghost counter: the number of times `vCalibrate`
has been entered. -/
structure State where
  /-- `int Result`: ADC0 decimated value -/
  Result : Int
  /-- `int min` -/
  min : Int
  /-- `int max` -/
  max : Int
  /-- `bit calibrate`: calibration flag -/
  calibrate : Bool
  /-- `unsigned char calibrate_state` -/
  calibrate_state : Nat
  /-- `static int int_dec` of `vADC0_ISR` -/
  int_dec : Int
  /-- `static long accumulator` of `vADC0_ISR` -/
  accumulator : Int
  decA : Bool
  decB : Bool
  decC : Bool
  decD : Bool
  calib_LED : Bool
  /-- global interrupt enable -/
  EA : Bool
  /-- timer 3 interrupt enable (`EIE2.0`) -/
  ET3 : Bool
  /-- ghost: entries of `vCalibrate` so far -/
  calibrations : Nat
deriving DecidableEq, Repr

/-- State at the point `main` reaches its `while(1)` (lines 77-105): static
initialisers, `min`/`max` defaults, `vDisplayNumber(0)`, timer 3 interrupt
enabled by `vTimer3_Init`, global interrupts enabled. -/
def initState : State :=
  { Result := 0, min := MIN_LIGHT, max := MAX_LIGHT, calibrate := false,
    calibrate_state := 0, int_dec := INT_DEC, accumulator := 0,
    decA := false, decB := false, decC := false, decD := false,
    calib_LED := false, EA := true, ET3 := true, calibrations := 0 }

/-! ## `vADC0_ISR` (lines 308-331) -/

/-- One run of the ADC0 end-of-conversion interrupt handler; `adc0` is the
value read from the 16-bit register `ADC0`. -/
def vADC0_ISR (s : State) (adc0 : Nat) : State :=
  -- accumulator+=ADC0;
  let accumulator := wrap32 (s.accumulator + ((adc0 % 65536 : Nat) : Int))
  -- if(--int_dec==0)
  let int_dec := wrap16 (s.int_dec - 1)
  if int_dec = 0 then
    { s with Result := wrap16 (accumulator >>> (8 : Nat)), int_dec := INT_DEC, accumulator := 0 }
  else
    { s with int_dec := int_dec, accumulator := accumulator }

/-- The handler run once for each conversion of `samples`, in order. -/
def runADC (s : State) (samples : List Nat) : State :=
  samples.foldl vADC0_ISR s

/-- Conversions serviced while the program runs on: the handler is vectored
only while global interrupts are enabled. -/
def service (s : State) (samples : List Nat) : State :=
  if s.EA = true then runADC s samples else s

/-! ## `vTimer3_ISR` (lines 262-269) -/

/-- One run of the timer 3 overflow handler; `S1` is the button level read
(`true` = `PRESSED`). -/
def vTimer3_ISR (s : State) (S1 : Bool) : State :=
  if S1 = true then { s with calibrate := true } else s

/-! ## Small routines (lines 362-375, 437-448) -/

def vInterrupt_enable (s : State) : State := { s with EA := true }

def vInterrupt_disable (s : State) : State := { s with EA := false }

/-- Blocking delay `vDelay_ms`: it changes no program variable itself; the
conversions completed meanwhile (`samples`) are serviced. -/
def vDelay_ms (s : State) (samples : List Nat) : State := service s samples

/-! ## `vDisplayNumber` (lines 388-425) -/

/-- The routine `vDisplayNumber`; `number` is its `unsigned char` argument. -/
def vDisplayNumber (s : State) (number : Nat) : State :=
  match number with
  | 0 => { s with decA := false, decB := false, decC := false, decD := false }
  | 1 => { s with decA := true, decB := false, decC := false, decD := false }
  | 2 => { s with decA := false, decB := true, decC := false, decD := false }
  | 3 => { s with decA := true, decB := true, decC := false, decD := false }
  | 4 => { s with decA := false, decB := false, decC := true, decD := false }
  | 5 => { s with decA := true, decB := false, decC := true, decD := false }
  | 6 => { s with decA := false, decB := true, decC := true, decD := false }
  | 7 => { s with decA := true, decB := true, decC := true, decD := false }
  | 8 => { s with decA := false, decB := false, decC := false, decD := true }
  | 9 => { s with decA := true, decB := false, decC := false, decD := true }
  | _ => { s with decA := false, decB := false, decC := false, decD := true }

/-- The four decoder outputs `(decA, decB, decC, decD)`. -/
def decCode (s : State) : Bool × Bool × Bool × Bool := (s.decA, s.decB, s.decC, s.decD)

/-- Conversion of an `int` to `unsigned char` at a call. -/
def toUChar (x : Int) : Nat := (x % 256).toNat

/-! ## `iScale` (lines 462-489) -/

/-- Lines 465-468: `measure` after the high-end clamp. -/
def iScaleMeasure (max measurement : Int) : Int :=
  if measurement ≥ max then max else measurement

/-- Value of the float expression `9.0*(measure-min)`: the difference is
taken in `int`, the product in float, where it is exact (its magnitude is at
most `9 * 32768`, below `2^24`). -/
def iScaleProduct (min max measurement : Int) : Int :=
  9 * wrap16 (iScaleMeasure max measurement - min)

/-- The function `iScale` with the globals `min`, `max` as parameters.
`(int)(9.0*(measure-min))/(max-min)` casts the product, not the quotient:
the product is converted to the 16-bit `int` (the float is converted to
`long` and its low 16 bits are kept), then divided in `int`, truncating
towards zero.  Division by zero is undefined: `none`. -/
def iScale (min max measurement : Int) : Option Int :=
  let divisor := wrap16 (max - min)
  if divisor = 0 then none
  else
    let scaled := wrap16 ((wrap16 (iScaleProduct min max measurement)).tdiv divisor)
    some (if scaled < 0 then 0 else scaled)

/-- Scaler as the specification words it: clamp `measured` to `max` from
above, `floor(9.0 * (measured - min) / (max - min))` in exact arithmetic,
negative results clamped to 0. -/
def scaleSpec (min max measured : Int) : Int :=
  let m : Int := if measured ≤ max then measured else max
  Max.max 0 ⌊(9 * ((m : ℚ) - (min : ℚ))) / ((max : ℚ) - (min : ℚ))⌋

/-! ## `vCalibrate` (lines 501-547) -/

/-- High byte of the 16 bits of an `int`. -/
def highByte (x : Int) : Int := (x % 65536) / 256

/-- Low byte of the 16 bits of an `int`. -/
def lowByte (x : Int) : Int := x % 256

/-- Copy of a 16-bit `int` on the 8-bit core: two byte moves.  `atFirst` is
the value the source variable holds at the first move, `atSecond` the value
it holds at the second; `highFirst` tells which byte the compiled code moves
first. -/
def copyInt16 (highFirst : Bool) (atFirst atSecond : Int) : Int :=
  if highFirst = true then wrap16 (256 * highByte atFirst + lowByte atSecond)
  else wrap16 (256 * highByte atSecond + lowByte atFirst)

/-- What the environment does during one run of `vCalibrate`: the ADC
conversions completed in each blocking phase, in program order.  For the two
`while(!S1)` loops, `none` means the button is never pressed (the loop does
not end) and `some l` that it is seen pressed after the conversions `l`.
Interrupts are enabled throughout, so conversions may also be serviced
between the two byte moves of `min=Result` (`tear1`) and of `max=Result`
(`tear2`). -/
structure CalibEnv where
  settle1 : List Nat
  press1 : Option (List Nat)
  debounce1 : List Nat
  tear1 : List Nat
  settle2 : List Nat
  press2 : Option (List Nat)
  debounce2 : List Nat
  tear2 : List Nat
  settle3 : List Nat
  highFirst : Bool

/-- Lines 513-522: the `CALIB_MIN` block. -/
def calibMin (s : State) (e : CalibEnv) : Option State :=
  if s.calibrate_state = CALIB_MIN then
    let s := vDisplayNumber s 0
    match e.press1 with
    | none => none
    | some w =>
      let s := service s w
      let s := vDelay_ms s e.debounce1
      -- min=Result; first byte move, interrupts, second byte move
      let atFirst := s.Result
      let s := service s e.tear1
      let s := { s with min := copyInt16 e.highFirst atFirst s.Result }
      some { s with calibrate_state := (s.calibrate_state + 1) % 256 }
  else some s

/-- Lines 526-535: the `CALIB_MAX` block. -/
def calibMax (s : State) (e : CalibEnv) : Option State :=
  if s.calibrate_state = CALIB_MAX then
    let s := vDisplayNumber s 9
    match e.press2 with
    | none => none
    | some w =>
      let s := service s w
      let s := vDelay_ms s e.debounce2
      -- max=Result; first byte move, interrupts, second byte move
      let atFirst := s.Result
      let s := service s e.tear2
      let s := { s with max := copyInt16 e.highFirst atFirst s.Result }
      some { s with calibrate_state := 0 }
  else some s

/-- Lines 503-511: LED on, `vDisplayNumber(8)`, timer 3 interrupt off, global
interrupts on, first settle delay. -/
def calibEnter (s : State) (e : CalibEnv) : State :=
  let s := { s with calib_LED := true, calibrations := s.calibrations + 1 }
  let s := vDisplayNumber s 8
  let s := { s with ET3 := false }
  let s := if s.EA = false then vInterrupt_enable s else s
  vDelay_ms s e.settle1

/-- Lines 537-546: the clamp of `calibrate_state`, last settle delay,
interrupts off, timer 3 interrupt on, LED off. -/
def calibLeave (s : State) (e : CalibEnv) : State :=
  let s := if s.calibrate_state > CALIB_MAX then { s with calibrate_state := 0 } else s
  let s := vDelay_ms s e.settle3
  let s := vInterrupt_disable s
  let s := { s with ET3 := true }
  { s with calib_LED := false }

/-- The routine `vCalibrate`; `none` when a button wait never ends. -/
def vCalibrate (s : State) (e : CalibEnv) : Option State :=
  let s := calibEnter s e
  match calibMin s e with
  | none => none
  | some s =>
    let s := vDelay_ms s e.settle2
    match calibMax s e with
    | none => none
    | some s => some (calibLeave s e)

/-- Two states hold the same filter: `Result`, `int_dec`, `accumulator`. -/
def sameFilter (s t : State) : Prop :=
  s.Result = t.Result ∧ s.int_dec = t.int_dec ∧ s.accumulator = t.accumulator

/-! ## `main`, one pass of the `while(1)` body (lines 109-138) -/

/-- Environment of one pass of the main loop: what happens inside
`vCalibrate` if it is called, then the conversions and the button levels seen
by the timer 3 handler during `vDelay_ms(SAMPLE_DELAY)`. -/
structure LoopEnv where
  calib : CalibEnv
  delay : List Nat
  buttons : List Bool

/-- Timer 3 interrupts serviced: only with `EA` and `ET3` set. -/
def serviceTimer3 (s : State) (buttons : List Bool) : State :=
  if s.EA = true ∧ s.ET3 = true then buttons.foldl vTimer3_ISR s else s

/-- Lines 128-129: `if(calibrate==ON) calibrate_state++;`. -/
def mainRequest (s : State) : State :=
  if s.calibrate = true then { s with calibrate_state := (s.calibrate_state + 1) % 256 } else s

/-- Lines 131-134: `if(calibrate_state>0){ vCalibrate(); calibrate=OFF; }`. -/
def mainCalibrate (s : State) (e : CalibEnv) : Option State :=
  if s.calibrate_state > 0 then
    match vCalibrate s e with
    | none => none
    | some s => some { s with calibrate := false }
  else some s

/-- One pass of the loop body; `none` when `iScale` divides by zero or a
button wait in `vCalibrate` never ends. -/
def mainLoop (s : State) (e : LoopEnv) : Option State :=
  let s := vInterrupt_disable s
  let measured_result := s.Result
  match iScale s.min s.max measured_result with
  | none => none
  | some scaled =>
    let s := vDisplayNumber s (toUChar scaled)
    let s := mainRequest s
    match mainCalibrate s e.calib with
    | none => none
    | some s =>
      let s := vInterrupt_enable s
      let s := vDelay_ms s e.delay
      some (serviceTimer3 s e.buttons)


/-! ## Exact-integer reading of `iScale` -/

/-- Computation of `iScale` read in unbounded integers: the same steps with
no reduction to 16 bits anywhere. -/
def iScaleExact (min max measurement : Int) : Option Int :=
  if max - min = 0 then none
  else
    let scaled := (9 * (iScaleMeasure max measurement - min)).tdiv (max - min)
    some (if scaled < 0 then 0 else scaled)

/-! ## Runs of the program -/

/-- States in which `main` can stand at the top of its loop: the state on
entering the loop, and the state after a pass from such a state. -/
inductive Reachable : State → Prop
  | init : Reachable initState
  | pass (s t : State) (e : LoopEnv) : Reachable s → mainLoop s e = some t → Reachable t

/-- Values of `calibrate_state` through one run of `vCalibrate`, in program
order: after the entry phase, after the `CALIB_MIN` block, after the
`CALIB_MAX` block, after the clamp of line 537.  The list stops where a
button wait never ends. -/
def calibPoints (s : State) (e : CalibEnv) : List Nat :=
  (calibEnter s e).calibrate_state ::
    match calibMin (calibEnter s e) e with
    | none => []
    | some s2 =>
      s2.calibrate_state ::
        match calibMax (vDelay_ms s2 e.settle2) e with
        | none => []
        | some s3 => [s3.calibrate_state, (calibLeave s3 e).calibrate_state]

/-- Values of `calibrate_state` through one pass of the main loop: at the
top, after line 129, then through `vCalibrate` if line 131 calls it. -/
def mainPoints (s : State) (e : LoopEnv) : List Nat :=
  match iScale s.min s.max s.Result with
  | none => [s.calibrate_state]
  | some scaled =>
    let s1 := mainRequest (vDisplayNumber (vInterrupt_disable s) (toUChar scaled))
    s.calibrate_state :: s1.calibrate_state ::
      (if s1.calibrate_state > 0 then calibPoints s1 e.calib else [])

/-- The changes in a list of successive values: the adjacent pairs that differ. -/
def changes : List Nat → List (Nat × Nat)
  | a :: b :: l => if a = b then changes (b :: l) else (a, b) :: changes (b :: l)
  | _ => []

/-! ## Concrete runs used in the examples below -/

/-- Entry of `vCalibrate` from the initial state with `calibrate_state = 1`. -/
def calibStart : State := { initState with calibrate_state := 1 }

/-- The light is dimmed between the two presses: one window of samples 3000
in the first settle delay, one window of samples 1000 in the second, both
presses seen at once. -/
def envDimming : CalibEnv :=
  { settle1 := List.replicate 256 3000, press1 := some [], debounce1 := [], tear1 := [],
    settle2 := List.replicate 256 1000, press2 := some [], debounce2 := [], tear2 := [],
    settle3 := [], highFirst := true }

/-- The light is raised between the two presses: one window of samples 700,
then one window of samples 3900. -/
def envBrightening : CalibEnv :=
  { settle1 := List.replicate 256 700, press1 := some [], debounce1 := [], tear1 := [],
    settle2 := List.replicate 256 3900, press2 := some [], debounce2 := [], tear2 := [],
    settle3 := [], highFirst := true }

/-- No conversion completes and both presses are seen at once. -/
def envQuiet : CalibEnv :=
  { settle1 := [], press1 := some [], debounce1 := [], tear1 := [],
    settle2 := [], press2 := some [], debounce2 := [], tear2 := [], settle3 := [],
    highFirst := true }

/-- A pass of the main loop during whose delay the timer 3 handler sees the
button pressed once. -/
def loopPressed : LoopEnv := { calib := envQuiet, delay := [], buttons := [true] }

/-- A pass of the main loop during whose delay the button is not pressed. -/
def loopReleased : LoopEnv := { calib := envQuiet, delay := [], buttons := [false] }

/-- The button is never pressed. -/
def envNoPress : CalibEnv :=
  { settle1 := [2048], press1 := none, debounce1 := [], tear1 := [],
    settle2 := [2048], press2 := none, debounce2 := [], tear2 := [], settle3 := [2048],
    highFirst := true }

/-- The filter publishes between the two byte moves of `min=Result`: a window
of samples 2047 in the first settle delay, 255 samples 2048 while the button
is awaited, and the 256th sample 2048 serviced between the byte moves, so
`Result` goes from 2047 (`0x07FF`) to 2048 (`0x0800`) there. -/
def envTorn (highFirst : Bool) : CalibEnv :=
  { settle1 := List.replicate 256 2047, press1 := some (List.replicate 255 2048),
    debounce1 := [], tear1 := [2048],
    settle2 := [], press2 := some [], debounce2 := [], tear2 := [], settle3 := [],
    highFirst := highFirst }

/-- Entry of `vCalibrate` with the out-of-range value `calibrate_state = 7`. -/
def calibCorrupt : State := { initState with calibrate_state := 7 }

/-! # Theorems -/

/-! ## Decimating filter -/

/-- A list of samples in `0..4095` sums to at most 4095 per sample. -/
theorem sum_le_of_range (l : List Nat) (h : ∀ x ∈ l, x ≤ 4095) : l.sum ≤ 4095 * l.length := by
  induction l with
  | nil => simp
  | cons a t ih =>
    have ha : a ≤ 4095 := h a (List.mem_cons_self a t)
    have ht := ih (fun x hx => h x (List.mem_cons_of_mem a hx))
    simp only [List.sum_cons, List.length_cons]
    omega

/-- Inside a window: while fewer samples arrive than the countdown holds, the
handler only counts down and accumulates. -/
theorem runADC_partial (samples : List Nat) : ∀ (s : State),
    (∀ x ∈ samples, x ≤ 4095) → (samples.length : Int) < s.int_dec → s.int_dec ≤ 256 →
    0 ≤ s.accumulator → s.accumulator ≤ 4095 * (256 - s.int_dec) →
    runADC s samples =
      { s with int_dec := s.int_dec - samples.length,
               accumulator := s.accumulator + (samples.sum : Nat) } := by
  induction samples with
  | nil => intro s _ _ _ _ _; cases s; simp [runADC]
  | cons a t ih =>
    intro s hr hlen hd ha0 ha
    have hA : a ≤ 4095 := hr a (List.mem_cons_self a t)
    have hlen2 : (t.length : Int) + 1 < s.int_dec := by
      simpa [List.length_cons] using hlen
    have hstep : vADC0_ISR s a =
        { s with int_dec := s.int_dec - 1, accumulator := s.accumulator + (a : Int) } := by
      have h1 : wrap16 (s.int_dec - 1) = s.int_dec - 1 := by unfold wrap16; omega
      have h2 : wrap32 (s.accumulator + ((a % 65536 : Nat) : Int)) = s.accumulator + (a : Int) := by
        unfold wrap32; omega
      have h2c : wrap32 (s.accumulator + (a : Int) % 65536) = s.accumulator + (a : Int) := by
        unfold wrap32; omega
      have h3 : s.int_dec - 1 ≠ 0 := by omega
      simp [vADC0_ISR, h1, h2, h2c, h3]
    have := ih (vADC0_ISR s a) (fun x hx => hr x (List.mem_cons_of_mem a hx))
      (by rw [hstep]; simp; omega) (by rw [hstep]; simp; omega)
      (by rw [hstep]; simp; omega) (by rw [hstep]; simp; omega)
    simp only [runADC, List.foldl_cons] at this ⊢
    rw [this, hstep]
    simp only [List.length_cons, List.sum_cons, Nat.cast_add, Nat.cast_one]
    congr 1 <;> omega

/-- The last sample of a window publishes the mean and rearms the filter. -/
theorem vADC0_ISR_last (s : State) (a : Nat) (hd : s.int_dec = 1) (ha : a ≤ 4095)
    (h0 : 0 ≤ s.accumulator) (h1 : s.accumulator ≤ 4095 * 255) :
    vADC0_ISR s a =
      { s with Result := (s.accumulator + (a : Int)) / 256, int_dec := 256, accumulator := 0 } := by
  have e1 : wrap16 (s.int_dec - 1) = 0 := by rw [hd]; decide
  have e2 : wrap32 (s.accumulator + ((a % 65536 : Nat) : Int)) = s.accumulator + (a : Int) := by
    unfold wrap32; omega
  have e2c : wrap32 (s.accumulator + (a : Int) % 65536) = s.accumulator + (a : Int) := by
    unfold wrap32; omega
  have e3 : wrap16 ((s.accumulator + (a : Int)) >>> (8 : Nat)) = (s.accumulator + (a : Int)) / 256 := by
    rw [Int.shiftRight_eq_div_pow]
    have : ((2 ^ 8 : Nat) : Int) = 256 := by norm_num
    rw [this]
    unfold wrap16; omega
  simp [vADC0_ISR, e1, e2, e2c, e3, INT_DEC]

/-- One whole window from a rearmed filter. -/
theorem runADC_window (w : List Nat) (s : State) (hd : s.int_dec = 256) (ha : s.accumulator = 0)
    (hw : w.length = 256) (hr : ∀ x ∈ w, x ≤ 4095) :
    runADC s w = { s with Result := ((w.sum / 256 : Nat) : Int), int_dec := 256, accumulator := 0 } := by
  obtain ⟨l, a, rfl⟩ : ∃ l a, w = l ++ [a] := by
    rcases List.eq_nil_or_concat w with h | ⟨l, a, h⟩
    · subst h; simp at hw
    · exact ⟨l, a, by simpa using h⟩
  have hl : l.length = 255 := by simpa using hw
  have hrl : ∀ x ∈ l, x ≤ 4095 := fun x hx => hr x (List.mem_append_left _ hx)
  have hra : a ≤ 4095 := hr a (by simp)
  have hsum := sum_le_of_range l hrl
  have hp := runADC_partial l s hrl (by rw [hd, hl]; norm_num) (by omega) (by omega) (by omega)
  have hstep : runADC s (l ++ [a]) = vADC0_ISR (runADC s l) a := by
    simp [runADC, List.foldl_append]
  have hres : (0 + ((l.sum : Nat) : Int) + (a : Int)) / 256 = (((l ++ [a]).sum / 256 : Nat) : Int) := by
    rw [List.sum_append, List.sum_singleton]; omega
  rw [hstep, hp, vADC0_ISR_last _ a (by show s.int_dec - _ = 1; omega) hra
    (by show 0 ≤ s.accumulator + _; omega) (by show s.accumulator + _ ≤ _; omega)]
  show ({ s with Result := (s.accumulator + ((l.sum : Nat) : Int) + (a : Int)) / 256,
                 int_dec := 256, accumulator := 0 } : State) = _
  rw [ha, hres]


/-- After any number of whole windows the filter is rearmed. -/
theorem runADC_windows (n : Nat) : ∀ (pre : List Nat) (s : State), pre.length = 256 * n →
    s.int_dec = 256 → s.accumulator = 0 → (∀ x ∈ pre, x ≤ 4095) →
    (runADC s pre).int_dec = 256 ∧ (runADC s pre).accumulator = 0 := by
  induction n with
  | zero =>
    intro pre s hl hd ha _
    have : pre = [] := List.length_eq_zero.mp (by simpa using hl)
    subst this
    exact ⟨hd, ha⟩
  | succ k ih =>
    intro pre s hl hd ha hr
    have hsplit : pre = pre.take 256 ++ pre.drop 256 := (List.take_append_drop 256 pre).symm
    have htake : (pre.take 256).length = 256 := by rw [List.length_take]; omega
    have hdrop : (pre.drop 256).length = 256 * k := by rw [List.length_drop]; omega
    have hw := runADC_window (pre.take 256) s hd ha htake
      (fun x hx => hr x (List.mem_of_mem_take hx))
    have hrun : runADC s pre = runADC (runADC s (pre.take 256)) (pre.drop 256) := by
      calc runADC s pre = runADC s (pre.take 256 ++ pre.drop 256) := by
            rw [List.take_append_drop]
        _ = runADC (runADC s (pre.take 256)) (pre.drop 256) := by
            simp only [runADC, List.foldl_append]
    rw [hrun]
    exact ih (pre.drop 256) _ hdrop (by rw [hw]) (by rw [hw])
      (fun x hx => hr x (List.mem_of_mem_drop hx))

/-- C1: from a rearmed filter (`int_dec = 256`, `accumulator = 0`), after any
number of whole windows `pre` and one more window `w` of 256 samples in
`0..4095`, the published `Result` is `floor(sum w / 256)` and the countdown
and the accumulator are back at 256 and 0. -/
theorem vADC0_ISR_decimation (s : State) (pre w : List Nat)
    (hd : s.int_dec = 256) (ha : s.accumulator = 0)
    (hpre : pre.length % 256 = 0) (hw : w.length = 256)
    (hr : ∀ x ∈ pre ++ w, x ≤ 4095) :
    (runADC s (pre ++ w)).Result = ((w.sum / 256 : Nat) : Int) ∧
    (runADC s (pre ++ w)).int_dec = 256 ∧
    (runADC s (pre ++ w)).accumulator = 0 := by
  have hrun : runADC s (pre ++ w) = runADC (runADC s pre) w := by
    simp [runADC, List.foldl_append]
  obtain ⟨h1, h2⟩ := runADC_windows (pre.length / 256) pre s (by omega) hd ha
    (fun x hx => hr x (List.mem_append_left _ hx))
  rw [hrun, runADC_window w _ h1 h2 hw (fun x hx => hr x (List.mem_append_right _ hx))]
  exact ⟨rfl, rfl, rfl⟩

/-- C1 at the initial state, one window of the constant sample 2048. -/
theorem vADC0_ISR_decimation_witness :
    (runADC initState ([] ++ List.replicate 256 2048)).Result
        = (((List.replicate 256 2048).sum / 256 : Nat) : Int) ∧
    (runADC initState ([] ++ List.replicate 256 2048)).int_dec = 256 ∧
    (runADC initState ([] ++ List.replicate 256 2048)).accumulator = 0 :=
  vADC0_ISR_decimation initState [] (List.replicate 256 2048) rfl rfl (by decide)
    (List.length_replicate 256 2048)
    (fun x hx => by
      rw [List.nil_append] at hx
      rw [List.eq_of_mem_replicate hx]
      decide)

/-! ## Scaler -/

/-- The specification's floor of the exact quotient is integer floor division. -/
theorem scaleSpec_eq_div (min max measured : Int) (h : min < max) :
    scaleSpec min max measured =
      Max.max 0 ((9 * ((if measured ≤ max then measured else max) - min)) / (max - min)) := by
  unfold scaleSpec
  obtain ⟨d, hd⟩ : ∃ d : Nat, max - min = (d : Int) := ⟨(max - min).toNat, by omega⟩
  have e : ((max : ℚ) - (min : ℚ)) = ((d : ℕ) : ℚ) := by
    have := congrArg (fun z : Int => (z : ℚ)) hd
    simpa using this
  simp only []
  rw [e, hd]
  congr 1
  have := Rat.floor_intCast_div_natCast (9 * ((if measured ≤ max then measured else max) - min)) d
  rw [← this]
  push_cast
  rfl


/-- Truncating division by a positive divisor, clamped below at 0, is the
floor quotient clamped below at 0. -/
theorem tdiv_clamp_eq (p d : Int) (hd : 0 < d) :
    (if p.tdiv d < 0 then 0 else p.tdiv d) = Max.max 0 (p / d) := by
  rcases le_or_lt 0 p with hp | hp
  · rw [Int.tdiv_eq_ediv hp (le_of_lt hd)]
    have : 0 ≤ p / d := Int.ediv_nonneg hp (le_of_lt hd)
    rw [if_neg (not_lt.mpr this), max_eq_right this]
  · have h1 : p.tdiv d = -((-p) / d) := by
      have := Int.neg_tdiv (-p) d
      rw [neg_neg] at this
      rw [this, Int.tdiv_eq_ediv (by omega) (le_of_lt hd)]
    have h2 : 0 ≤ (-p) / d := Int.ediv_nonneg (by omega) (le_of_lt hd)
    have h3 : p / d < 0 := Int.ediv_neg' hp hd
    rw [h1, max_eq_left (le_of_lt h3)]
    split <;> omega

/-- Truncating division does not grow the magnitude. -/
theorem tdiv_bounds (p d : Int) (hd : 0 < d) (hp : isInt16 p) : isInt16 (p.tdiv d) := by
  unfold isInt16 at *
  rcases le_or_lt 0 p with h0 | h0
  · rw [Int.tdiv_eq_ediv h0 (le_of_lt hd)]
    have h1 : 0 ≤ p / d := Int.ediv_nonneg h0 (le_of_lt hd)
    have h2 : p / d ≤ p := Int.ediv_le_self d h0
    omega
  · have h1 : p.tdiv d = -((-p) / d) := by
      have := Int.neg_tdiv (-p) d
      rw [neg_neg] at this
      rw [this, Int.tdiv_eq_ediv (by omega) (le_of_lt hd)]
    have h2 : 0 ≤ (-p) / d := Int.ediv_nonneg (by omega) (le_of_lt hd)
    have h3 : (-p) / d ≤ -p := Int.ediv_le_self d (by omega)
    omega

/-- Where the product `9 * (measure - min)` fits the 16-bit `int` (and the
span `max - min` does), `iScale` computes the specification's formula. -/
theorem iScale_eq_scaleSpec_of_fits (min max m : Int) (hlt : min < max)
    (hspan : max - min ≤ 32767) (hfit : isInt16 (9 * (iScaleMeasure max m - min))) :
    iScale min max m = some (scaleSpec min max m) := by
  have hfit2 := hfit
  unfold isInt16 at hfit2
  have hd : wrap16 (max - min) = max - min := by unfold wrap16; omega
  have hd0 : max - min ≠ 0 := by omega
  have hx : wrap16 (iScaleMeasure max m - min) = iScaleMeasure max m - min := by
    unfold wrap16; omega
  have hp : wrap16 (9 * (iScaleMeasure max m - min)) = 9 * (iScaleMeasure max m - min) := by
    unfold wrap16; omega
  have hq := tdiv_bounds (9 * (iScaleMeasure max m - min)) (max - min) (by omega) hfit
  have hq2 : wrap16 ((9 * (iScaleMeasure max m - min)).tdiv (max - min))
      = (9 * (iScaleMeasure max m - min)).tdiv (max - min) := by
    unfold isInt16 at hq
    unfold wrap16; omega
  have hm : iScaleMeasure max m = (if m ≤ max then m else max) := by
    unfold iScaleMeasure
    split <;> split <;> omega
  simp only [iScale, iScaleProduct, hd, hx, hp, hq2, if_neg hd0]
  rw [tdiv_clamp_eq _ _ (by omega), scaleSpec_eq_div _ _ _ hlt, hm]

/-- Where the product fits, the result of `iScale` is in `0..9`. -/
theorem iScale_range_of_fits (min max m : Int) (hlt : min < max)
    (hspan : max - min ≤ 32767) (hfit : isInt16 (9 * (iScaleMeasure max m - min))) :
    ∃ r, iScale min max m = some r ∧ 0 ≤ r ∧ r ≤ 9 := by
  refine ⟨_, iScale_eq_scaleSpec_of_fits min max m hlt hspan hfit, ?_, ?_⟩
  · rw [scaleSpec_eq_div _ _ _ hlt]
    exact le_max_left _ _
  · rw [scaleSpec_eq_div _ _ _ hlt]
    apply max_le (by decide)
    apply Int.ediv_le_of_le_mul (by omega)
    split <;> omega

/-- Where both products fit, `iScale` is monotone in the measurement. -/
theorem iScale_mono_of_fits (min max x y : Int) (hlt : min < max)
    (hspan : max - min ≤ 32767) (hxy : x ≤ y)
    (hx : isInt16 (9 * (iScaleMeasure max x - min)))
    (hy : isInt16 (9 * (iScaleMeasure max y - min))) :
    ∃ r1 r2, iScale min max x = some r1 ∧ iScale min max y = some r2 ∧ r1 ≤ r2 := by
  refine ⟨_, _, iScale_eq_scaleSpec_of_fits min max x hlt hspan hx,
    iScale_eq_scaleSpec_of_fits min max y hlt hspan hy, ?_⟩
  rw [scaleSpec_eq_div _ _ _ hlt, scaleSpec_eq_div _ _ _ hlt]
  apply max_le_max (le_refl 0)
  apply Int.ediv_le_ediv (by omega)
  split <;> split <;> omega

/-- C2 (code defect): with `min = 4094`, `max = 4095` the measurement 0 makes
the product `9.0*(measure-min) = -36846`, which does not fit the 16-bit `int`;
the cast keeps 28690 and `iScale` returns 28690, outside `0..9`. -/
theorem iScale_exceeds_nine :
    (4094 : Int) < 4095 ∧ iScaleProduct 4094 4095 0 = -36846 ∧
    iScale 4094 4095 0 = some 28690 := by
  decide

/-- C3 (code defect): with `min = 0`, `max = 4000` and measurement 4000 the
product is 36000, the cast to the 16-bit `int` gives -29536 and `iScale`
returns 0, where the specification's formula gives 9. -/
theorem iScale_differs_from_scaleSpec :
    (0 : Int) < 4000 ∧ iScaleProduct 0 4000 4000 = 36000 ∧ wrap16 36000 = -29536 ∧
    iScale 0 4000 4000 = some 0 ∧ scaleSpec 0 4000 4000 = 9 := by
  refine ⟨by decide, by decide, by decide, by decide, ?_⟩
  rw [scaleSpec_eq_div _ _ _ (by decide)]
  decide

/-- C4 (code defect): with `min = 0`, `max = 4095` the scaler returns 0 at
`max`, not 9: the product `9 * 4095 = 36855` does not fit the 16-bit `int`.
With the default range the product fits: `iScale 610 = 0`, `iScale 4095 = 9`. -/
theorem iScale_max_not_nine :
    (0 : Int) < 4095 ∧ iScaleProduct 0 4095 4095 = 36855 ∧ iScale 0 4095 4095 = some 0 ∧
    iScale MIN_LIGHT MAX_LIGHT 610 = some 0 ∧ iScale MIN_LIGHT MAX_LIGHT 4095 = some 9 := by
  decide

/-- C5: for `int` values `min`, `max` with `max ≠ min` and every `x > max`,
`iScale x` returns a result and it is the result of `iScale max`. -/
theorem iScale_clamp_above_max (min max x : Int) (hmin : isInt16 min) (hmax : isInt16 max)
    (hne : max ≠ min) (hx : x > max) :
    ∃ r, iScale min max max = some r ∧ iScale min max x = some r := by
  have hd : wrap16 (max - min) ≠ 0 := by
    unfold isInt16 at hmin hmax
    unfold wrap16
    omega
  have hm : iScaleMeasure max x = iScaleMeasure max max := by
    unfold iScaleMeasure
    rw [if_pos (le_of_lt hx), if_pos (le_refl max)]
  have heq : iScale min max x = iScale min max max := by
    simp only [iScale, iScaleProduct, hm]
  obtain ⟨r, hr⟩ : ∃ r, iScale min max max = some r := by
    simp only [iScale, if_neg hd]
    exact ⟨_, rfl⟩
  exact ⟨r, hr, by rw [heq, hr]⟩

/-- C5 at the default range and `x = 5000`: both calls return 9. -/
theorem iScale_clamp_above_max_witness :
    iScale 610 4095 4095 = some 9 ∧ iScale 610 4095 5000 = some 9 := by
  obtain ⟨r, h1, h2⟩ :=
    iScale_clamp_above_max 610 4095 5000 (by decide) (by decide) (by decide) (by decide)
  have h9 : iScale 610 4095 4095 = some 9 := by decide
  have hr : r = 9 := Option.some.inj (h1.symm.trans h9)
  subst hr
  exact ⟨h1, h2⟩

/-- C6 (code defect): with `min = 0`, `max = 4095`, `iScale 3640 = 8` but
`iScale 3641 = 0`: the scaler is not monotone on `[min, max]`. -/
theorem iScale_not_monotone :
    (0 : Int) ≤ 3640 ∧ (3640 : Int) ≤ 3641 ∧ (3641 : Int) ≤ 4095 ∧
    iScale 0 4095 3640 = some 8 ∧ iScale 0 4095 3641 = some 0 := by
  decide

/-! ## Display -/

/-- C7: for every number in `0..9`, `vDisplayNumber` sets
`(decA, decB, decC, decD)` to the table's code, which is the number's binary
digits from least to most significant; for every other argument it sets
`(0, 0, 0, 1)`. -/
theorem vDisplayNumber_table (s : State) :
    decCode (vDisplayNumber s 0) = (false, false, false, false) ∧
    decCode (vDisplayNumber s 1) = (true, false, false, false) ∧
    decCode (vDisplayNumber s 2) = (false, true, false, false) ∧
    decCode (vDisplayNumber s 3) = (true, true, false, false) ∧
    decCode (vDisplayNumber s 4) = (false, false, true, false) ∧
    decCode (vDisplayNumber s 5) = (true, false, true, false) ∧
    decCode (vDisplayNumber s 6) = (false, true, true, false) ∧
    decCode (vDisplayNumber s 7) = (true, true, true, false) ∧
    decCode (vDisplayNumber s 8) = (false, false, false, true) ∧
    decCode (vDisplayNumber s 9) = (true, false, false, true) ∧
    (∀ n : Nat, n ≤ 9 → decCode (vDisplayNumber s n)
        = (n.testBit 0, n.testBit 1, n.testBit 2, n.testBit 3)) ∧
    (∀ n : Nat, 10 ≤ n → decCode (vDisplayNumber s n) = (false, false, false, true)) := by
  refine ⟨rfl, rfl, rfl, rfl, rfl, rfl, rfl, rfl, rfl, rfl, ?_, ?_⟩
  · intro n hn
    interval_cases n <;> rfl
  · intro n hn
    obtain ⟨k, rfl⟩ : ∃ k, n = k + 10 := ⟨n - 10, by omega⟩
    rfl

/-- C7 at the initial state, for the digit 5 and the out-of-range value 200. -/
theorem vDisplayNumber_table_witness :
    decCode (vDisplayNumber initState 5)
        = (Nat.testBit 5 0, Nat.testBit 5 1, Nat.testBit 5 2, Nat.testBit 5 3) ∧
    decCode (vDisplayNumber initState 200) = (false, false, false, true) :=
  ⟨(vDisplayNumber_table initState).2.2.2.2.2.2.2.2.2.2.1 5 (by decide),
   (vDisplayNumber_table initState).2.2.2.2.2.2.2.2.2.2.2 200 (by decide)⟩

/-! ## Calibration -/

/-- The handler reads and writes the filter variables only. -/
theorem vADC0_ISR_sameFilter (s t : State) (a : Nat) (h : sameFilter s t) :
    sameFilter (vADC0_ISR s a) (vADC0_ISR t a) := by
  obtain ⟨h1, h2, h3⟩ := h
  by_cases hz : wrap16 (t.int_dec - 1) = 0 <;>
    simp [vADC0_ISR, sameFilter, h1, h2, h3, hz]

/-- States with the same filter have the same filter after the same conversions. -/
theorem runADC_sameFilter (l : List Nat) : ∀ (s t : State), sameFilter s t →
    sameFilter (runADC s l) (runADC t l) := by
  induction l with
  | nil => intro s t h; exact h
  | cons a l ih => intro s t h; exact ih _ _ (vADC0_ISR_sameFilter s t a h)

/-- The handler leaves every variable outside the filter unchanged. -/
theorem vADC0_ISR_frame (s : State) (a : Nat) :
    (vADC0_ISR s a).min = s.min ∧ (vADC0_ISR s a).max = s.max ∧
    (vADC0_ISR s a).calibrate = s.calibrate ∧
    (vADC0_ISR s a).calibrate_state = s.calibrate_state ∧
    decCode (vADC0_ISR s a) = decCode s ∧
    (vADC0_ISR s a).calib_LED = s.calib_LED ∧
    (vADC0_ISR s a).EA = s.EA ∧ (vADC0_ISR s a).ET3 = s.ET3 ∧
    (vADC0_ISR s a).calibrations = s.calibrations := by
  by_cases hz : wrap16 (s.int_dec - 1) = 0 <;> simp [vADC0_ISR, decCode, hz]

/-- Any number of conversions leaves every variable outside the filter unchanged. -/
theorem runADC_frame (l : List Nat) : ∀ (s : State),
    (runADC s l).min = s.min ∧ (runADC s l).max = s.max ∧
    (runADC s l).calibrate = s.calibrate ∧
    (runADC s l).calibrate_state = s.calibrate_state ∧
    decCode (runADC s l) = decCode s ∧
    (runADC s l).calib_LED = s.calib_LED ∧
    (runADC s l).EA = s.EA ∧ (runADC s l).ET3 = s.ET3 ∧
    (runADC s l).calibrations = s.calibrations := by
  induction l with
  | nil => intro s; simp [runADC]
  | cons a l ih =>
    intro s
    have h1 := ih (vADC0_ISR s a)
    have h2 := vADC0_ISR_frame s a
    simp only [runADC, List.foldl_cons] at h1 ⊢
    obtain ⟨a1, a2, a3, a4, a5, a6, a7, a8, a9⟩ := h1
    obtain ⟨b1, b2, b3, b4, b5, b6, b7, b8, b9⟩ := h2
    exact ⟨a1.trans b1, a2.trans b2, a3.trans b3, a4.trans b4, a5.trans b5, a6.trans b6,
      a7.trans b7, a8.trans b8, a9.trans b9⟩

@[simp] theorem runADC_min (s : State) (l : List Nat) : (runADC s l).min = s.min := (runADC_frame l s).1
@[simp] theorem runADC_max (s : State) (l : List Nat) : (runADC s l).max = s.max := (runADC_frame l s).2.1
@[simp] theorem runADC_calibrate (s : State) (l : List Nat) : (runADC s l).calibrate = s.calibrate := (runADC_frame l s).2.2.1
@[simp] theorem runADC_calibrate_state (s : State) (l : List Nat) : (runADC s l).calibrate_state = s.calibrate_state := (runADC_frame l s).2.2.2.1
@[simp] theorem runADC_EA (s : State) (l : List Nat) : (runADC s l).EA = s.EA := (runADC_frame l s).2.2.2.2.2.2.1
@[simp] theorem runADC_ET3 (s : State) (l : List Nat) : (runADC s l).ET3 = s.ET3 := (runADC_frame l s).2.2.2.2.2.2.2.1
@[simp] theorem runADC_calibrations (s : State) (l : List Nat) : (runADC s l).calibrations = s.calibrations := (runADC_frame l s).2.2.2.2.2.2.2.2


/-- Conversions in sequence. -/
theorem runADC_append (s : State) (a b : List Nat) :
    runADC s (a ++ b) = runADC (runADC s a) b := by
  simp only [runADC, List.foldl_append]

/-- Having the same filter is transitive. -/
theorem sameFilter_trans {s t u : State} (h1 : sameFilter s t) (h2 : sameFilter t u) :
    sameFilter s u :=
  ⟨h1.1.trans h2.1, h1.2.1.trans h2.2.1, h1.2.2.trans h2.2.2⟩

/-- Entry phase of `vCalibrate`. -/
theorem calibEnter_spec (s : State) (e : CalibEnv) :
    (calibEnter s e).EA = true ∧ (calibEnter s e).ET3 = false ∧
    (calibEnter s e).calibrate_state = s.calibrate_state ∧
    (calibEnter s e).calibrations = s.calibrations + 1 ∧
    (calibEnter s e).min = s.min ∧ (calibEnter s e).max = s.max ∧
    (calibEnter s e).calibrate = s.calibrate ∧
    sameFilter (calibEnter s e) (runADC s e.settle1) := by
  cases hEA : s.EA <;>
    simp [calibEnter, vDelay_ms, service, vInterrupt_enable, vDisplayNumber, hEA] <;>
    exact runADC_sameFilter _ _ _ ⟨rfl, rfl, rfl⟩

/-- Conversions serviced after a state that holds the filter of `runADC s a`. -/
theorem sameFilter_step {u s : State} {a : List Nat} (h : sameFilter u (runADC s a))
    (b : List Nat) : sameFilter (runADC u b) (runADC s (a ++ b)) := by
  rw [runADC_append]
  exact runADC_sameFilter _ _ _ h

/-- The `CALIB_MIN` block entered with `calibrate_state = 1` and the button
pressed after the conversions `w`: `min` receives its two bytes from the
`Result` held before and after the conversions `tear1`. -/
theorem calibMin_spec (s : State) (e : CalibEnv) (w : List Nat)
    (hs : s.calibrate_state = 1) (hEA : s.EA = true) (hp : e.press1 = some w) :
    ∃ t, calibMin s e = some t ∧
      t.min = copyInt16 e.highFirst (runADC s (w ++ e.debounce1)).Result
                (runADC s (w ++ e.debounce1 ++ e.tear1)).Result ∧
      t.calibrate_state = 2 ∧ t.EA = true ∧ t.ET3 = s.ET3 ∧ t.max = s.max ∧
      t.calibrations = s.calibrations ∧ t.calibrate = s.calibrate ∧
      sameFilter t (runADC s (w ++ e.debounce1 ++ e.tear1)) := by
  have hf : sameFilter (runADC (runADC (vDisplayNumber s 0) w) e.debounce1)
      (runADC s (w ++ e.debounce1)) := by
    rw [runADC_append]
    exact runADC_sameFilter _ _ _ (runADC_sameFilter _ _ _ ⟨rfl, rfl, rfl⟩)
  have hf2 : sameFilter (runADC (runADC (runADC (vDisplayNumber s 0) w) e.debounce1) e.tear1)
      (runADC s (w ++ e.debounce1 ++ e.tear1)) := sameFilter_step hf e.tear1
  have hEA0 : (vDisplayNumber s 0).EA = true := hEA
  have hEA1 : (runADC (vDisplayNumber s 0) w).EA = true := by rw [runADC_EA]; exact hEA0
  have hEA2 : (runADC (runADC (vDisplayNumber s 0) w) e.debounce1).EA = true := by
    rw [runADC_EA]; exact hEA1
  have hc : calibMin s e = some
      { runADC (runADC (runADC (vDisplayNumber s 0) w) e.debounce1) e.tear1 with
        min := copyInt16 e.highFirst
          (runADC (runADC (vDisplayNumber s 0) w) e.debounce1).Result
          (runADC (runADC (runADC (vDisplayNumber s 0) w) e.debounce1) e.tear1).Result,
        calibrate_state :=
          ((runADC (runADC (runADC (vDisplayNumber s 0) w) e.debounce1)
            e.tear1).calibrate_state + 1) % 256 } := by
    simp only [calibMin, hs, CALIB_MIN, if_true, hp, vDelay_ms, service, hEA0, hEA1, hEA2]
  refine ⟨_, hc, ?_, ?_, ?_, ?_, ?_, ?_, ?_, hf2⟩
  · show copyInt16 e.highFirst _ _ = _
    rw [hf.1, hf2.1]
  all_goals simp [hs, hEA, vDisplayNumber]

/-- The `CALIB_MAX` block entered with `calibrate_state = 2` and the button
pressed after the conversions `w`: `max` receives its two bytes from the
`Result` held before and after the conversions `tear2`. -/
theorem calibMax_spec (s : State) (e : CalibEnv) (w : List Nat)
    (hs : s.calibrate_state = 2) (hEA : s.EA = true) (hp : e.press2 = some w) :
    ∃ t, calibMax s e = some t ∧
      t.max = copyInt16 e.highFirst (runADC s (w ++ e.debounce2)).Result
                (runADC s (w ++ e.debounce2 ++ e.tear2)).Result ∧
      t.calibrate_state = 0 ∧ t.EA = true ∧ t.ET3 = s.ET3 ∧ t.min = s.min ∧
      t.calibrations = s.calibrations ∧ t.calibrate = s.calibrate ∧
      sameFilter t (runADC s (w ++ e.debounce2 ++ e.tear2)) := by
  have hf : sameFilter (runADC (runADC (vDisplayNumber s 9) w) e.debounce2)
      (runADC s (w ++ e.debounce2)) := by
    rw [runADC_append]
    exact runADC_sameFilter _ _ _ (runADC_sameFilter _ _ _ ⟨rfl, rfl, rfl⟩)
  have hf2 : sameFilter (runADC (runADC (runADC (vDisplayNumber s 9) w) e.debounce2) e.tear2)
      (runADC s (w ++ e.debounce2 ++ e.tear2)) := sameFilter_step hf e.tear2
  have hEA0 : (vDisplayNumber s 9).EA = true := hEA
  have hEA1 : (runADC (vDisplayNumber s 9) w).EA = true := by rw [runADC_EA]; exact hEA0
  have hEA2 : (runADC (runADC (vDisplayNumber s 9) w) e.debounce2).EA = true := by
    rw [runADC_EA]; exact hEA1
  have hc : calibMax s e = some
      { runADC (runADC (runADC (vDisplayNumber s 9) w) e.debounce2) e.tear2 with
        max := copyInt16 e.highFirst
          (runADC (runADC (vDisplayNumber s 9) w) e.debounce2).Result
          (runADC (runADC (runADC (vDisplayNumber s 9) w) e.debounce2) e.tear2).Result,
        calibrate_state := 0 } := by
    simp only [calibMax, hs, CALIB_MAX, if_true, hp, vDelay_ms, service, hEA0, hEA1, hEA2]
  refine ⟨_, hc, ?_, ?_, ?_, ?_, ?_, ?_, ?_, hf2⟩
  · show copyInt16 e.highFirst _ _ = _
    rw [hf.1, hf2.1]
  all_goals simp [hs, hEA, vDisplayNumber]

/-- Exit phase of `vCalibrate`. -/
theorem calibLeave_spec (s : State) (e : CalibEnv) (hs : s.calibrate_state ≤ 2) :
    (calibLeave s e).calibrate_state = s.calibrate_state ∧
    (calibLeave s e).min = s.min ∧ (calibLeave s e).max = s.max ∧
    (calibLeave s e).calibrations = s.calibrations ∧
    (calibLeave s e).calibrate = s.calibrate ∧
    (calibLeave s e).EA = false ∧ (calibLeave s e).ET3 = true := by
  have h : ¬ s.calibrate_state > CALIB_MAX := by unfold CALIB_MAX; omega
  cases hEA : s.EA <;>
    simp [calibLeave, h, vDelay_ms, service, vInterrupt_disable, hEA]

/-- A run of `vCalibrate` entered with `calibrate_state = 1` during which the
button is pressed twice: the run returns, and `min` and `max` each hold the
two bytes copied from `Result`, one from the value the filter holds at the
first byte move and one from the value it holds at the second. -/
theorem vCalibrate_run (s : State) (e : CalibEnv) (w1 w2 : List Nat)
    (hs : s.calibrate_state = 1) (h1 : e.press1 = some w1) (h2 : e.press2 = some w2) :
    ∃ t, vCalibrate s e = some t ∧
      t.min = copyInt16 e.highFirst
        (runADC s (e.settle1 ++ w1 ++ e.debounce1)).Result
        (runADC s (e.settle1 ++ w1 ++ e.debounce1 ++ e.tear1)).Result ∧
      t.max = copyInt16 e.highFirst
        (runADC s (e.settle1 ++ w1 ++ e.debounce1 ++ e.tear1 ++ e.settle2 ++ w2
          ++ e.debounce2)).Result
        (runADC s (e.settle1 ++ w1 ++ e.debounce1 ++ e.tear1 ++ e.settle2 ++ w2
          ++ e.debounce2 ++ e.tear2)).Result ∧
      t.calibrate_state = 0 ∧ t.calibrations = s.calibrations + 1 ∧
      t.calibrate = s.calibrate ∧ t.EA = false ∧ t.ET3 = true := by
  obtain ⟨a1, a2, a3, a4, a5, a6, a7, a8⟩ := calibEnter_spec s e
  obtain ⟨t1, b0, b1, b2, b3, b4, b5, b6, b7, b8⟩ :=
    calibMin_spec (calibEnter s e) e w1 (a3.trans hs) a1 h1
  have hd : vDelay_ms t1 e.settle2 = runADC t1 e.settle2 := by
    simp only [vDelay_ms, service, b3, if_true]
  obtain ⟨t2, c0, c1, c2, c3, c4, c5, c6, c7, c8⟩ :=
    calibMax_spec (runADC t1 e.settle2) e w2 (by simp [b2]) (by simp [b3]) h2
  obtain ⟨d1, d2, d3, d4, d5, d6, d7⟩ := calibLeave_spec t2 e (by omega)
  -- the filter at the two byte moves of the first copy
  have f1 : sameFilter (runADC (calibEnter s e) (w1 ++ e.debounce1))
      (runADC s (e.settle1 ++ w1 ++ e.debounce1)) := by
    simpa only [List.append_assoc] using sameFilter_step a8 (w1 ++ e.debounce1)
  have f1t : sameFilter (runADC (calibEnter s e) (w1 ++ e.debounce1 ++ e.tear1))
      (runADC s (e.settle1 ++ w1 ++ e.debounce1 ++ e.tear1)) := by
    simpa only [List.append_assoc] using sameFilter_step a8 (w1 ++ e.debounce1 ++ e.tear1)
  -- the filter after the second settle delay
  have g : sameFilter (runADC t1 e.settle2)
      (runADC s (e.settle1 ++ w1 ++ e.debounce1 ++ e.tear1 ++ e.settle2)) :=
    sameFilter_step (sameFilter_trans b8 f1t) e.settle2
  -- the filter at the two byte moves of the second copy
  have f2 : sameFilter (runADC (runADC t1 e.settle2) (w2 ++ e.debounce2))
      (runADC s (e.settle1 ++ w1 ++ e.debounce1 ++ e.tear1 ++ e.settle2 ++ w2
        ++ e.debounce2)) := by
    simpa only [List.append_assoc] using sameFilter_step g (w2 ++ e.debounce2)
  have f2t : sameFilter (runADC (runADC t1 e.settle2) (w2 ++ e.debounce2 ++ e.tear2))
      (runADC s (e.settle1 ++ w1 ++ e.debounce1 ++ e.tear1 ++ e.settle2 ++ w2
        ++ e.debounce2 ++ e.tear2)) := by
    simpa only [List.append_assoc] using sameFilter_step g (w2 ++ e.debounce2 ++ e.tear2)
  refine ⟨calibLeave t2 e, ?_, ?_, ?_, ?_, ?_, ?_, d6, d7⟩
  · simp only [vCalibrate, b0, hd, c0]
  · rw [d2, c5, runADC_min, b1, f1.1, f1t.1]
  · rw [d3, c1, f2.1, f2t.1]
  · rw [d1, c2]
  · rw [d4, c6, runADC_calibrations, b6, a4]
  · rw [d5, c7, runADC_calibrate, b7, a7]

/-- One window of a constant sample publishes that sample. -/
theorem runADC_replicate (s : State) (v : Nat) (hd : s.int_dec = 256) (ha : s.accumulator = 0)
    (hv : v ≤ 4095) :
    runADC s (List.replicate 256 v) = { s with Result := (v : Int), int_dec := 256, accumulator := 0 } := by
  rw [runADC_window _ s hd ha (List.length_replicate 256 v)
    (fun x hx => by rw [List.eq_of_mem_replicate hx]; exact hv)]
  have : (List.replicate 256 v).sum / 256 = v := by
    rw [List.sum_replicate, smul_eq_mul]; omega
  rw [this]

/-- With `calibrate_state = 1` on entry, `vCalibrate` does not return unless
the button is pressed in both waits. -/
theorem vCalibrate_blocks (s : State) (e : CalibEnv) (hs : s.calibrate_state = 1)
    (h : e.press1 = none ∨ e.press2 = none) : vCalibrate s e = none := by
  obtain ⟨a1, a2, a3, a4, a5, a6, a7, a8⟩ := calibEnter_spec s e
  cases h1 : e.press1 with
  | none => simp [vCalibrate, calibMin, a3, hs, CALIB_MIN, h1]
  | some w1 =>
    have h2 : e.press2 = none := by
      rcases h with h | h
      · rw [h1] at h; cases h
      · exact h
    obtain ⟨t1, b0, b1, b2, b3, b4, b5, b6, b7, b8⟩ :=
      calibMin_spec (calibEnter s e) e w1 (a3.trans hs) a1 h1
    simp [vCalibrate, b0, calibMax, vDelay_ms, service, b2, b3, CALIB_MAX, h2]

/-- Reduction to 16 bits gives an `int` value. -/
theorem wrap16_isInt16 (x : Int) : isInt16 (wrap16 x) := by
  unfold isInt16 wrap16
  omega

/-- A two-byte copy during which the source does not change copies it. -/
theorem copyInt16_same (b : Bool) (x : Int) (h : isInt16 x) : copyInt16 b x x = x := by
  unfold isInt16 at h
  unfold copyInt16 highByte lowByte wrap16
  split <;> omega

/-- The handler keeps `Result` an `int` value. -/
theorem runADC_Result_isInt16 (l : List Nat) : ∀ (s : State), isInt16 s.Result →
    isInt16 (runADC s l).Result := by
  induction l with
  | nil => intro s h; exact h
  | cons a l ih =>
    intro s h
    apply ih (vADC0_ISR s a)
    by_cases hz : wrap16 (s.int_dec - 1) = 0
    · have : (vADC0_ISR s a).Result
          = wrap16 (wrap32 (s.accumulator + ((a % 65536 : Nat) : Int)) >>> (8 : Nat)) := by
        simp [vADC0_ISR, hz]
      rw [this]
      exact wrap16_isInt16 _
    · have : (vADC0_ISR s a).Result = s.Result := by simp [vADC0_ISR, hz]
      rw [this]
      exact h

/-- When no conversion is serviced between the byte moves of the two copies,
a run of `vCalibrate` entered with `calibrate_state = 1` stores in `min` and
`max` the `Result` values the filter holds at the two copies. -/
theorem vCalibrate_acquires_untorn (s : State) (e : CalibEnv) (w1 w2 : List Nat)
    (hs : s.calibrate_state = 1) (h1 : e.press1 = some w1) (h2 : e.press2 = some w2)
    (hR : isInt16 s.Result) (ht1 : e.tear1 = []) (ht2 : e.tear2 = []) :
    ∃ t, vCalibrate s e = some t ∧
      t.min = (runADC s (e.settle1 ++ w1 ++ e.debounce1)).Result ∧
      t.max = (runADC s (e.settle1 ++ w1 ++ e.debounce1 ++ e.settle2 ++ w2
                ++ e.debounce2)).Result ∧
      t.calibrate_state = 0 := by
  obtain ⟨t, h, hmin, hmax, hst, _⟩ := vCalibrate_run s e w1 w2 hs h1 h2
  rw [ht1, ht2] at hmax
  rw [ht1] at hmin
  simp only [List.append_nil] at hmin hmax
  rw [copyInt16_same _ _ (runADC_Result_isInt16 _ s hR)] at hmin hmax
  exact ⟨t, h, hmin, hmax, hst⟩

/-- C8 (code defect): `vCalibrate` copies `Result` with interrupts enabled.
On the run `envTorn` from `calibStart` the filter holds `Result = 2047` at
the first byte move of `min=Result` and publishes 2048 before the second;
the run returns with `min = 1792` when the high byte is moved first and with
`min = 2303` when the low byte is moved first, a value `Result` never held. -/
theorem vCalibrate_torn_read :
    calibStart.calibrate_state = 1 ∧
    (runADC calibStart (List.replicate 256 2047 ++ List.replicate 255 2048)).Result = 2047 ∧
    (runADC calibStart
      (List.replicate 256 2047 ++ List.replicate 255 2048 ++ [2048])).Result = 2048 ∧
    (vCalibrate calibStart (envTorn true)).map (fun t => (t.min, t.calibrate_state))
      = some (1792, 0) ∧
    (vCalibrate calibStart (envTorn false)).map (fun t => (t.min, t.calibrate_state))
      = some (2303, 0) := by
  have hA := runADC_replicate calibStart 2047 rfl rfl (by decide)
  have hB := runADC_partial (List.replicate 255 2048)
    { calibStart with Result := ((2047 : Nat) : Int), int_dec := 256, accumulator := 0 }
    (fun x hx => by rw [List.eq_of_mem_replicate hx]; decide)
    (by rw [List.length_replicate]; decide) (by decide) (by decide) (by decide)
  have r1 : (runADC calibStart
      (List.replicate 256 2047 ++ List.replicate 255 2048)).Result = 2047 := by
    rw [runADC_append, hA, hB]
    rfl
  have r2 : (runADC calibStart
      (List.replicate 256 2047 ++ List.replicate 255 2048 ++ [2048])).Result = 2048 := by
    rw [List.append_assoc, ← List.replicate_succ', runADC_append, hA,
      runADC_replicate _ 2048 rfl rfl (by decide)]
    rfl
  refine ⟨rfl, r1, r2, ?_, ?_⟩
  · obtain ⟨t, h, hmin, _, hst, _⟩ :=
      vCalibrate_run calibStart (envTorn true) (List.replicate 255 2048) [] rfl rfl rfl
    simp only [envTorn, List.append_nil] at hmin
    rw [r1, r2] at hmin
    rw [h, Option.map_some', hmin, hst]
    decide
  · obtain ⟨t, h, hmin, _, hst, _⟩ :=
      vCalibrate_run calibStart (envTorn false) (List.replicate 255 2048) [] rfl rfl rfl
    simp only [envTorn, List.append_nil] at hmin
    rw [r1, r2] at hmin
    rw [h, Option.map_some', hmin, hst]
    decide

/-- C10 (as stated, refuted): on the run `envDimming` from `calibStart` the
calibration completes with `min = 3000` and `max = 1000`. -/
theorem vCalibrate_min_above_max :
    (vCalibrate calibStart envDimming).map (fun t => (t.min, t.max)) = some (3000, 1000) := by
  obtain ⟨t, h, hmin, hmax, _⟩ := vCalibrate_run calibStart envDimming [] [] rfl rfl rfl
  simp only [envDimming, List.append_nil] at hmin hmax
  rw [runADC_replicate calibStart 3000 rfl rfl (by decide)] at hmin
  rw [runADC_append, runADC_replicate calibStart 3000 rfl rfl (by decide),
    runADC_replicate _ 1000 rfl rfl (by decide)] at hmax
  rw [h, Option.map_some', hmin, hmax]
  decide

/-- C10 (amended): after a completed calibration entered with
`calibrate_state = 1`, `min` and `max` are the two 16-bit values copied from
`Result` after the two presses, each copy taking one byte from the `Result`
held at its first byte move and the other byte from the `Result` held at its
second; nothing orders them, and `min < max` holds exactly when the first
copied value is below the second. -/
theorem vCalibrate_range_order (s : State) (e : CalibEnv) (w1 w2 : List Nat)
    (hs : s.calibrate_state = 1) (h1 : e.press1 = some w1) (h2 : e.press2 = some w2) :
    ∃ t, vCalibrate s e = some t ∧
      t.min = copyInt16 e.highFirst
        (runADC s (e.settle1 ++ w1 ++ e.debounce1)).Result
        (runADC s (e.settle1 ++ w1 ++ e.debounce1 ++ e.tear1)).Result ∧
      t.max = copyInt16 e.highFirst
        (runADC s (e.settle1 ++ w1 ++ e.debounce1 ++ e.tear1 ++ e.settle2 ++ w2
          ++ e.debounce2)).Result
        (runADC s (e.settle1 ++ w1 ++ e.debounce1 ++ e.tear1 ++ e.settle2 ++ w2
          ++ e.debounce2 ++ e.tear2)).Result ∧
      (t.min < t.max ↔
        copyInt16 e.highFirst
          (runADC s (e.settle1 ++ w1 ++ e.debounce1)).Result
          (runADC s (e.settle1 ++ w1 ++ e.debounce1 ++ e.tear1)).Result
        < copyInt16 e.highFirst
          (runADC s (e.settle1 ++ w1 ++ e.debounce1 ++ e.tear1 ++ e.settle2 ++ w2
            ++ e.debounce2)).Result
          (runADC s (e.settle1 ++ w1 ++ e.debounce1 ++ e.tear1 ++ e.settle2 ++ w2
            ++ e.debounce2 ++ e.tear2)).Result) := by
  obtain ⟨t, h, hmin, hmax, _⟩ := vCalibrate_run s e w1 w2 hs h1 h2
  exact ⟨t, h, hmin, hmax, by rw [hmin, hmax]⟩

/-- C10 (amended) on the run `envBrightening` from `calibStart`: the copies
are 700 and 3900, and `min < max` holds. -/
theorem vCalibrate_range_order_witness :
    (vCalibrate calibStart envBrightening).map (fun t => (t.min, t.max, decide (t.min < t.max)))
      = some (700, 3900, true) := by
  obtain ⟨t, h, hmin, hmax, _⟩ :=
    vCalibrate_range_order calibStart envBrightening [] [] rfl rfl rfl
  simp only [envBrightening, List.append_nil] at hmin hmax
  rw [runADC_replicate calibStart 700 rfl rfl (by decide)] at hmin
  rw [runADC_append, runADC_replicate calibStart 700 rfl rfl (by decide),
    runADC_replicate _ 3900 rfl rfl (by decide)] at hmax
  rw [h, Option.map_some', hmin, hmax]
  decide

/-! ## Main loop -/

/-- The timer 3 handler writes `calibrate` only. -/
theorem timer3_frame (l : List Bool) : ∀ (s : State),
    (l.foldl vTimer3_ISR s).calibrate_state = s.calibrate_state ∧
    (l.foldl vTimer3_ISR s).calibrations = s.calibrations ∧
    (l.foldl vTimer3_ISR s).min = s.min ∧ (l.foldl vTimer3_ISR s).max = s.max := by
  induction l with
  | nil => intro s; exact ⟨rfl, rfl, rfl, rfl⟩
  | cons b l ih =>
    intro s
    obtain ⟨h1, h2, h3, h4⟩ := ih (vTimer3_ISR s b)
    simp only [List.foldl_cons]
    cases b <;> simp_all [vTimer3_ISR]

/-- Lines 136-138 of the main loop leave the calibration variables alone. -/
theorem mainTail_frame (u : State) (e : LoopEnv) :
    (serviceTimer3 (vDelay_ms (vInterrupt_enable u) e.delay) e.buttons).calibrate_state
      = u.calibrate_state ∧
    (serviceTimer3 (vDelay_ms (vInterrupt_enable u) e.delay) e.buttons).calibrations
      = u.calibrations ∧
    (serviceTimer3 (vDelay_ms (vInterrupt_enable u) e.delay) e.buttons).min = u.min ∧
    (serviceTimer3 (vDelay_ms (vInterrupt_enable u) e.delay) e.buttons).max = u.max := by
  have hd : vDelay_ms (vInterrupt_enable u) e.delay = runADC (vInterrupt_enable u) e.delay := by
    simp [vDelay_ms, service, vInterrupt_enable]
  rw [hd]
  unfold serviceTimer3
  split
  · obtain ⟨h1, h2, h3, h4⟩ := timer3_frame e.buttons (runADC (vInterrupt_enable u) e.delay)
    rw [h1, h2, h3, h4]
    simp [vInterrupt_enable]
  · simp [vInterrupt_enable]

/-- The state in which the main loop reaches its calibration test (line 131). -/
theorem mainLoop_eq (s : State) (e : LoopEnv) (v : Int)
    (hv : iScale s.min s.max s.Result = some v) :
    mainLoop s e =
      (mainCalibrate (mainRequest (vDisplayNumber (vInterrupt_disable s) (toUChar v))) e.calib).map
        (fun u => serviceTimer3 (vDelay_ms (vInterrupt_enable u) e.delay) e.buttons) := by
  have hv2 : iScale (vInterrupt_disable s).min (vInterrupt_disable s).max
      (vInterrupt_disable s).Result = some v := hv
  simp only [mainLoop, hv2]
  cases mainCalibrate (mainRequest (vDisplayNumber (vInterrupt_disable s) (toUChar v))) e.calib <;> rfl

/-- The display routine writes the decoder outputs only. -/
theorem vDisplayNumber_frame (s : State) (n : Nat) :
    (vDisplayNumber s n).calibrate_state = s.calibrate_state ∧
    (vDisplayNumber s n).calibrate = s.calibrate ∧
    (vDisplayNumber s n).calibrations = s.calibrations ∧
    (vDisplayNumber s n).min = s.min ∧ (vDisplayNumber s n).max = s.max ∧
    sameFilter (vDisplayNumber s n) s := by
  unfold vDisplayNumber sameFilter
  split <;> simp

/-- C9 (as stated, refuted): from the initial state (Idle), a first pass
during which the button is seen pressed once leaves `vCalibrate` uncalled and
the state Idle with the request flag set; the very next pass, the only one
that finds the request, calls `vCalibrate`, which acquires `min` and `max`. -/
theorem mainLoop_single_request :
    initState.calibrate_state = 0 ∧ initState.calibrations = 0 ∧
    (mainLoop initState loopPressed).map
        (fun t => (t.calibrate, t.calibrate_state, t.calibrations)) = some (true, 0, 0) ∧
    ((mainLoop initState loopPressed).bind (fun t => mainLoop t loopReleased)).map
        (fun t => (t.calibrate_state, t.calibrations, t.min, t.max)) = some (0, 1, 0, 0) := by
  decide

/-! ## Decimating filter: ordinals and bounds -/

/-- One more conversion after the conversions `pre`. -/
theorem runADC_snoc (s : State) (pre : List Nat) (a : Nat) :
    runADC s (pre ++ [a]) = vADC0_ISR (runADC s pre) a := by
  simp only [runADC, List.foldl_append, List.foldl_cons, List.foldl_nil]

/-- The countdown after `l.length` calls depends on the number of calls only. -/
theorem runADC_int_dec (l : List Nat) (s : State) (hd : s.int_dec = 256) :
    (runADC s l).int_dec = 256 - ((l.length % 256 : Nat) : Int) := by
  induction l using List.reverseRecOn with
  | nil => simpa [runADC] using hd
  | append_singleton l a ih =>
    rw [runADC_snoc, List.length_append, List.length_singleton]
    by_cases hz : wrap16 ((runADC s l).int_dec - 1) = 0
    · have h1 : (vADC0_ISR (runADC s l) a).int_dec = 256 := by
        simp [vADC0_ISR, hz, INT_DEC]
      rw [h1]
      rw [ih] at hz
      unfold wrap16 at hz
      omega
    · have h1 : (vADC0_ISR (runADC s l) a).int_dec = wrap16 ((runADC s l).int_dec - 1) := by
        simp [vADC0_ISR, hz]
      rw [h1]
      rw [ih] at hz ⊢
      unfold wrap16 at hz ⊢
      omega

/-- The handler writes `Result` only when the countdown stands at 1. -/
theorem vADC0_ISR_Result_unchanged (s : State) (a : Nat) (h : wrap16 (s.int_dec - 1) ≠ 0) :
    (vADC0_ISR s a).Result = s.Result := by
  simp [vADC0_ISR, h]

/-- C12: counting calls of `vADC0_ISR` from a rearmed filter (`int_dec = 256`),
the `n`-th call, `n = pre.length + 1`, leaves `Result` unchanged when `n` is
not a multiple of 256, whatever the samples; so a call that changes `Result`
has an ordinal that is a multiple of 256. -/
theorem vADC0_ISR_publish_ordinal (s : State) (pre : List Nat) (a : Nat)
    (hd : s.int_dec = 256) :
    ((pre.length + 1) % 256 ≠ 0 → (runADC s (pre ++ [a])).Result = (runADC s pre).Result) ∧
    ((runADC s (pre ++ [a])).Result ≠ (runADC s pre).Result → (pre.length + 1) % 256 = 0) := by
  have key : (pre.length + 1) % 256 ≠ 0 →
      (runADC s (pre ++ [a])).Result = (runADC s pre).Result := by
    intro hn
    rw [runADC_snoc]
    apply vADC0_ISR_Result_unchanged
    rw [runADC_int_dec pre s hd]
    unfold wrap16
    omega
  refine ⟨key, fun hne => ?_⟩
  by_contra hn
  exact hne (key hn)

/-- C12 from the initial state: the third call leaves `Result` unchanged. -/
theorem vADC0_ISR_publish_ordinal_witness :
    (runADC initState ([4000, 4000] ++ [4000])).Result = (runADC initState [4000, 4000]).Result :=
  (vADC0_ISR_publish_ordinal initState [4000, 4000] 4000 rfl).1 (by decide)

/-- Inside a window the accumulator holds at most 4095 per sample taken. -/
theorem vADC0_ISR_inv (s : State) (a : Nat) (ha : a ≤ 4095)
    (h1 : 1 ≤ s.int_dec) (h2 : s.int_dec ≤ 256) (h3 : 0 ≤ s.accumulator)
    (h4 : s.accumulator ≤ 4095 * (256 - s.int_dec)) :
    (1 ≤ (vADC0_ISR s a).int_dec ∧ (vADC0_ISR s a).int_dec ≤ 256 ∧
      0 ≤ (vADC0_ISR s a).accumulator ∧
      (vADC0_ISR s a).accumulator ≤ 4095 * (256 - (vADC0_ISR s a).int_dec)) ∧
    ((vADC0_ISR s a).Result = s.Result ∨
      ((vADC0_ISR s a).Result = (s.accumulator + (a : Int)) / 256 ∧
        0 ≤ (vADC0_ISR s a).Result ∧ (vADC0_ISR s a).Result ≤ 4095)) := by
  have e2 : wrap32 (s.accumulator + ((a % 65536 : Nat) : Int)) = s.accumulator + (a : Int) := by
    unfold wrap32; omega
  have e2c : wrap32 (s.accumulator + (a : Int) % 65536) = s.accumulator + (a : Int) := by
    unfold wrap32; omega
  by_cases hz : s.int_dec = 1
  · rw [vADC0_ISR_last s a hz ha h3 (by omega)]
    refine ⟨⟨?_, ?_, le_refl 0, ?_⟩, Or.inr ⟨rfl, ?_, ?_⟩⟩
    · show (1 : Int) ≤ 256
      decide
    · show (256 : Int) ≤ 256
      decide
    · show (0 : Int) ≤ 4095 * (256 - 256)
      decide
    · show 0 ≤ (s.accumulator + (a : Int)) / 256
      omega
    · show (s.accumulator + (a : Int)) / 256 ≤ 4095
      omega
  · have e1 : wrap16 (s.int_dec - 1) = s.int_dec - 1 := by unfold wrap16; omega
    have e3 : s.int_dec - 1 ≠ 0 := by omega
    have hstep : vADC0_ISR s a =
        { s with int_dec := s.int_dec - 1, accumulator := s.accumulator + (a : Int) } := by
      simp [vADC0_ISR, e1, e2, e2c, e3]
    rw [hstep]
    refine ⟨⟨?_, ?_, ?_, ?_⟩, Or.inl rfl⟩
    · show 1 ≤ s.int_dec - 1
      omega
    · show s.int_dec - 1 ≤ 256
      omega
    · show 0 ≤ s.accumulator + (a : Int)
      omega
    · show s.accumulator + (a : Int) ≤ 4095 * (256 - (s.int_dec - 1))
      omega

/-- The window invariant holds after any number of samples in `0..4095`. -/
theorem runADC_inv (l : List Nat) : ∀ (s : State), (∀ x ∈ l, x ≤ 4095) →
    1 ≤ s.int_dec → s.int_dec ≤ 256 → 0 ≤ s.accumulator →
    s.accumulator ≤ 4095 * (256 - s.int_dec) →
    1 ≤ (runADC s l).int_dec ∧ (runADC s l).int_dec ≤ 256 ∧ 0 ≤ (runADC s l).accumulator ∧
      (runADC s l).accumulator ≤ 4095 * (256 - (runADC s l).int_dec) := by
  induction l with
  | nil => intro s _ h1 h2 h3 h4; exact ⟨h1, h2, h3, h4⟩
  | cons a l ih =>
    intro s hr h1 h2 h3 h4
    obtain ⟨⟨i1, i2, i3, i4⟩, _⟩ :=
      vADC0_ISR_inv s a (hr a (List.mem_cons_self a l)) h1 h2 h3 h4
    exact ih (vADC0_ISR s a) (fun x hx => hr x (List.mem_cons_of_mem a hx)) i1 i2 i3 i4

/-- C17: from a rearmed filter and with every raw sample in `0..4095`, after
every call the accumulator is in `0..1048320` and `1 ≤ int_dec ≤ 256`, and
the call either leaves `Result` unchanged or publishes the exact quotient
`(accumulator + sample) / 256`, which lies in `0..4095`: neither the 32-bit
accumulator nor the 16-bit `Result` is truncated. -/
theorem vADC0_ISR_bounds (s : State) (pre : List Nat) (a : Nat)
    (hd : s.int_dec = 256) (hacc : s.accumulator = 0)
    (hr : ∀ x ∈ pre ++ [a], x ≤ 4095) :
    (0 ≤ (runADC s (pre ++ [a])).accumulator ∧
      (runADC s (pre ++ [a])).accumulator ≤ 1048320) ∧
    (1 ≤ (runADC s (pre ++ [a])).int_dec ∧ (runADC s (pre ++ [a])).int_dec ≤ 256) ∧
    ((runADC s (pre ++ [a])).Result = (runADC s pre).Result ∨
      ((runADC s (pre ++ [a])).Result = ((runADC s pre).accumulator + (a : Int)) / 256 ∧
        0 ≤ (runADC s (pre ++ [a])).Result ∧ (runADC s (pre ++ [a])).Result ≤ 4095)) := by
  obtain ⟨p1, p2, p3, p4⟩ := runADC_inv pre s
    (fun x hx => hr x (List.mem_append_left _ hx)) (by omega) (by omega) (by omega) (by omega)
  obtain ⟨⟨i1, i2, i3, i4⟩, hres⟩ :=
    vADC0_ISR_inv (runADC s pre) a (hr a (by simp)) p1 p2 p3 p4
  rw [runADC_snoc]
  exact ⟨⟨i3, by omega⟩, ⟨i1, i2⟩, hres⟩

/-- C17 from the initial state on three calls with the sample 4095. -/
theorem vADC0_ISR_bounds_witness :
    (0 ≤ (runADC initState ([4095, 4095] ++ [4095])).accumulator ∧
      (runADC initState ([4095, 4095] ++ [4095])).accumulator ≤ 1048320) ∧
    (1 ≤ (runADC initState ([4095, 4095] ++ [4095])).int_dec ∧
      (runADC initState ([4095, 4095] ++ [4095])).int_dec ≤ 256) :=
  ⟨(vADC0_ISR_bounds initState [4095, 4095] 4095 rfl rfl (by decide)).1,
   (vADC0_ISR_bounds initState [4095, 4095] 4095 rfl rfl (by decide)).2.1⟩

/-- C11: from the initial state with the default range, 256 calls of
`vADC0_ISR` with the raw sample 2048 publish `Result = 2048`; `iScale` of
2048 is 3; `vDisplayNumber(3)` sets `(decA, decB, decC, decD) = (1, 1, 0, 0)`;
and the next pass of the main loop shows that code. -/
theorem end_to_end_2048 :
    initState.min = 610 ∧ initState.max = 4095 ∧
    (runADC initState (List.replicate 256 2048)).Result = 2048 ∧
    iScale initState.min initState.max 2048 = some 3 ∧
    decCode (vDisplayNumber initState 3) = (true, true, false, false) ∧
    (mainLoop (runADC initState (List.replicate 256 2048)) loopReleased).map decCode
      = some (true, true, false, false) := by
  have h := runADC_replicate initState 2048 rfl rfl (by decide)
  refine ⟨rfl, rfl, ?_, by decide, rfl, ?_⟩
  · rw [h]
    rfl
  · rw [h]
    decide

/-! ## Calibration from any entry state -/

/-- Servicing conversions leaves the calibration variables alone. -/
theorem service_frame (s : State) (l : List Nat) :
    (service s l).calibrate_state = s.calibrate_state ∧ (service s l).min = s.min ∧
    (service s l).max = s.max ∧ (service s l).EA = s.EA := by
  unfold service
  split <;> simp

/-- The `CALIB_MIN` block either runs from state 1 to state 2 or is skipped. -/
theorem calibMin_cases (s t : State) (e : CalibEnv) (h : calibMin s e = some t) :
    (s.calibrate_state = 1 ∧ t.calibrate_state = 2) ∨ (s.calibrate_state ≠ 1 ∧ t = s) := by
  unfold calibMin at h
  by_cases hs : s.calibrate_state = CALIB_MIN
  · rw [if_pos hs] at h
    left
    refine ⟨hs, ?_⟩
    cases hp : e.press1 with
    | none => simp [hp] at h
    | some w =>
      simp only [hp, Option.some.injEq] at h
      rw [← h]
      show ((service (vDelay_ms (service (vDisplayNumber s 0) w) e.debounce1)
        e.tear1).calibrate_state + 1) % 256 = 2
      rw [(service_frame (vDelay_ms (service (vDisplayNumber s 0) w) e.debounce1) e.tear1).1]
      have h1 := (service_frame (service (vDisplayNumber s 0) w) e.debounce1).1
      have h2 := (service_frame (vDisplayNumber s 0) w).1
      have h3 : (vDisplayNumber s 0).calibrate_state = s.calibrate_state := rfl
      unfold vDelay_ms
      rw [h1, h2, h3, hs]
      rfl
  · rw [if_neg hs] at h
    right
    exact ⟨hs, (Option.some.inj h).symm⟩

/-- The `CALIB_MAX` block either runs from state 2 to state 0 or is skipped. -/
theorem calibMax_cases (s t : State) (e : CalibEnv) (h : calibMax s e = some t) :
    (s.calibrate_state = 2 ∧ t.calibrate_state = 0) ∨ (s.calibrate_state ≠ 2 ∧ t = s) := by
  unfold calibMax at h
  by_cases hs : s.calibrate_state = CALIB_MAX
  · rw [if_pos hs] at h
    left
    refine ⟨hs, ?_⟩
    cases hp : e.press2 with
    | none => simp [hp] at h
    | some w =>
      simp only [hp, Option.some.injEq] at h
      rw [← h]
  · rw [if_neg hs] at h
    right
    exact ⟨hs, (Option.some.inj h).symm⟩

/-- Exit phase of `vCalibrate` from any state. -/
theorem calibLeave_frame (s : State) (e : CalibEnv) :
    (calibLeave s e).calibrate_state = (if s.calibrate_state > 2 then 0 else s.calibrate_state) ∧
    (calibLeave s e).min = s.min ∧ (calibLeave s e).max = s.max := by
  by_cases h : s.calibrate_state > CALIB_MAX
  · have h2 : s.calibrate_state > 2 := h
    cases hEA : s.EA <;>
      simp [calibLeave, h, h2, vDelay_ms, service, vInterrupt_disable, hEA]
  · have h2 : ¬ s.calibrate_state > 2 := h
    cases hEA : s.EA <;>
      simp [calibLeave, h, h2, vDelay_ms, service, vInterrupt_disable, hEA]

/-- Whatever the entry state, a run of `vCalibrate` that returns leaves
`calibrate_state = 0`. -/
theorem vCalibrate_idle (s t : State) (e : CalibEnv) (h : vCalibrate s e = some t) :
    t.calibrate_state = 0 := by
  unfold vCalibrate at h
  cases h1 : calibMin (calibEnter s e) e with
  | none => simp [h1] at h
  | some s2 =>
    cases h2 : calibMax (vDelay_ms s2 e.settle2) e with
    | none => simp [h1, h2] at h
    | some s3 =>
      simp only [h1, h2, Option.some.injEq] at h
      rw [← h, (calibLeave_frame s3 e).1]
      have hd : (vDelay_ms s2 e.settle2).calibrate_state = s2.calibrate_state :=
        (service_frame s2 e.settle2).1
      rcases calibMax_cases _ _ _ h2 with ⟨_, c⟩ | ⟨c1, c2⟩
      · rw [c]; rfl
      · rw [c2, hd]
        rw [hd] at c1
        rcases calibMin_cases _ _ _ h1 with ⟨_, b⟩ | ⟨b1, b2⟩
        · exact absurd b c1
        · rw [← b2] at b1
          split
          · rfl
          · omega

/-- With the button pressed in both waits, `vCalibrate` returns from any
entry state. -/
theorem vCalibrate_returns (s : State) (e : CalibEnv) (w1 w2 : List Nat)
    (h1 : e.press1 = some w1) (h2 : e.press2 = some w2) : ∃ t, vCalibrate s e = some t := by
  have hmin : ∀ u : State, ∃ t, calibMin u e = some t := by
    intro u
    unfold calibMin
    split
    · simp only [h1]; exact ⟨_, rfl⟩
    · exact ⟨_, rfl⟩
  have hmax : ∀ u : State, ∃ t, calibMax u e = some t := by
    intro u
    unfold calibMax
    split
    · simp only [h2]; exact ⟨_, rfl⟩
    · exact ⟨_, rfl⟩
  obtain ⟨s2, e1⟩ := hmin (calibEnter s e)
  obtain ⟨s3, e2⟩ := hmax (vDelay_ms s2 e.settle2)
  exact ⟨calibLeave s3 e, by simp only [vCalibrate, e1, e2]⟩

/-- C14: entered with `calibrate_state` outside `{0, 1, 2}` (3 or more),
`vCalibrate` returns, whatever the button does, with `calibrate_state = 0`
and with `min` and `max` unchanged. -/
theorem vCalibrate_clamps (s : State) (e : CalibEnv) (h3 : 3 ≤ s.calibrate_state) :
    ∃ t, vCalibrate s e = some t ∧ t.calibrate_state = 0 ∧ t.min = s.min ∧ t.max = s.max := by
  obtain ⟨_, _, a3, _, a5, a6, _, _⟩ := calibEnter_spec s e
  have e1 : calibMin (calibEnter s e) e = some (calibEnter s e) := by
    have : ¬ (calibEnter s e).calibrate_state = CALIB_MIN := by
      rw [a3]; unfold CALIB_MIN; omega
    simp only [calibMin, if_neg this]
  obtain ⟨d1, d2, d3, _⟩ := service_frame (calibEnter s e) e.settle2
  have e2 : calibMax (vDelay_ms (calibEnter s e) e.settle2) e
      = some (vDelay_ms (calibEnter s e) e.settle2) := by
    have : ¬ (vDelay_ms (calibEnter s e) e.settle2).calibrate_state = CALIB_MAX := by
      unfold vDelay_ms
      rw [d1, a3]; unfold CALIB_MAX; omega
    simp only [calibMax, if_neg this]
  have hv : vCalibrate s e = some (calibLeave (vDelay_ms (calibEnter s e) e.settle2) e) := by
    simp only [vCalibrate, e1, e2]
  obtain ⟨l1, l2, l3⟩ := calibLeave_frame (vDelay_ms (calibEnter s e) e.settle2) e
  refine ⟨_, hv, vCalibrate_idle _ _ _ hv, ?_, ?_⟩
  · rw [l2]; unfold vDelay_ms; rw [d2, a5]
  · rw [l3]; unfold vDelay_ms; rw [d3, a6]

/-- C14 at `calibrate_state = 7` with the button never pressed. -/
theorem vCalibrate_clamps_witness :
    (vCalibrate calibCorrupt envNoPress).map (fun t => (t.calibrate_state, t.min, t.max))
      = some (0, 610, 4095) := by
  obtain ⟨t, h, h1, h2, h3⟩ := vCalibrate_clamps calibCorrupt envNoPress (by decide)
  rw [h, Option.map_some', h1, h2, h3]
  rfl

/-- A pass of the main loop that returns leaves `calibrate_state = 0`. -/
theorem mainLoop_idle (s t : State) (e : LoopEnv) (h : mainLoop s e = some t) :
    t.calibrate_state = 0 := by
  cases hv : iScale s.min s.max s.Result with
  | none =>
    have hv2 : iScale (vInterrupt_disable s).min (vInterrupt_disable s).max
        (vInterrupt_disable s).Result = none := hv
    simp [mainLoop, hv2] at h
  | some v =>
    rw [mainLoop_eq s e v hv] at h
    cases hc : mainCalibrate
        (mainRequest (vDisplayNumber (vInterrupt_disable s) (toUChar v))) e.calib with
    | none => simp [hc] at h
    | some u =>
      simp only [hc, Option.map_some', Option.some.injEq] at h
      rw [← h, (mainTail_frame u e).1]
      unfold mainCalibrate at hc
      split at hc
      · cases hvc : vCalibrate
            (mainRequest (vDisplayNumber (vInterrupt_disable s) (toUChar v))) e.calib with
        | none => simp [hvc] at hc
        | some u2 =>
          simp only [hvc, Option.some.injEq] at hc
          rw [← hc]
          show u2.calibrate_state = 0
          exact vCalibrate_idle _ u2 _ hvc
      · rw [← Option.some.inj hc]
        omega

/-- At the top of the main loop `calibrate_state` is 0. -/
theorem reachable_idle (s : State) (h : Reachable s) : s.calibrate_state = 0 := by
  induction h with
  | init => rfl
  | pass s t e _ hstep _ => exact mainLoop_idle s t e hstep

/-- C16: whatever the entry value of `calibrate_state`, a run of `vCalibrate`
that returns leaves `calibrate_state = 0`, and it returns when the button is
pressed in both waits; so `calibrate_state = 0` after every pass and at the
top of every pass of the main loop, and the states 1 and 2 occur only inside
one call of `vCalibrate`, which entered with state 1 returns only after both
presses. -/
theorem vCalibrate_returns_idle (s : State) (e : CalibEnv) :
    (∀ t, vCalibrate s e = some t → t.calibrate_state = 0) ∧
    (∀ w1 w2, e.press1 = some w1 → e.press2 = some w2 →
      ∃ t, vCalibrate s e = some t ∧ t.calibrate_state = 0) ∧
    (s.calibrate_state = 1 → ∀ t, vCalibrate s e = some t →
      ∃ w1 w2, e.press1 = some w1 ∧ e.press2 = some w2) ∧
    (∀ (u t : State) (l : LoopEnv), mainLoop u l = some t → t.calibrate_state = 0) ∧
    (∀ u, Reachable u → u.calibrate_state = 0) := by
  refine ⟨fun t h => vCalibrate_idle s t e h, ?_, ?_, fun u t l h => mainLoop_idle u t l h,
    fun u h => reachable_idle u h⟩
  · intro w1 w2 h1 h2
    obtain ⟨t, ht⟩ := vCalibrate_returns s e w1 w2 h1 h2
    exact ⟨t, ht, vCalibrate_idle s t e ht⟩
  · intro hs t ht
    cases h1 : e.press1 with
    | none => rw [vCalibrate_blocks s e hs (Or.inl h1)] at ht; cases ht
    | some w1 =>
      cases h2 : e.press2 with
      | none => rw [vCalibrate_blocks s e hs (Or.inr h2)] at ht; cases ht
      | some w2 => exact ⟨w1, w2, rfl, rfl⟩

/-- C16 on a run entered with state 2 and on the state after a first pass. -/
theorem vCalibrate_returns_idle_witness :
    (vCalibrate { initState with calibrate_state := 2 } envQuiet).map
        (fun t => t.calibrate_state) = some 0 ∧
    ((mainLoop initState loopPressed).map (fun t => t.calibrate_state)) = some 0 := by
  constructor
  · obtain ⟨t, h, h0⟩ :=
      (vCalibrate_returns_idle { initState with calibrate_state := 2 } envQuiet).2.1
        [] [] rfl rfl
    rw [h, Option.map_some', h0]
  · have hp : mainLoop initState loopPressed = some (vTimer3_ISR initState true) := by decide
    have h0 := (vCalibrate_returns_idle initState envQuiet).2.2.2.1
      initState (vTimer3_ISR initState true) loopPressed hp
    rw [hp, Option.map_some', h0]

/-! ## Transitions of `calibrate_state` -/

/-- The values `calibrate_state` takes through a run of `vCalibrate` entered
with state 1, according to how far the button lets the run go. -/
theorem calibPoints_awaitingMin (s : State) (e : CalibEnv) (hs : s.calibrate_state = 1) :
    calibPoints s e = [1] ∨ calibPoints s e = [1, 2] ∨ calibPoints s e = [1, 2, 0, 0] := by
  obtain ⟨a1, _, a3, _⟩ := calibEnter_spec s e
  have a3b : (calibEnter s e).calibrate_state = 1 := a3.trans hs
  cases h1 : e.press1 with
  | none =>
    left
    have hmin : calibMin (calibEnter s e) e = none := by
      simp [calibMin, a3b, CALIB_MIN, h1]
    simp only [calibPoints, hmin, a3b]
  | some w1 =>
    obtain ⟨t1, b0, _, b2, b3, _⟩ := calibMin_spec (calibEnter s e) e w1 a3b a1 h1
    have hd : vDelay_ms t1 e.settle2 = runADC t1 e.settle2 := by
      simp only [vDelay_ms, service, b3, if_true]
    cases h2 : e.press2 with
    | none =>
      right; left
      have hmax : calibMax (vDelay_ms t1 e.settle2) e = none := by
        simp [hd, calibMax, b2, CALIB_MAX, h2]
      simp only [calibPoints, b0, hmax, a3b, b2]
    | some w2 =>
      right; right
      obtain ⟨t2, c0, _, c2, _⟩ :=
        calibMax_spec (runADC t1 e.settle2) e w2 (by simp [b2]) (by simp [b3]) h2
      have hl : (calibLeave t2 e).calibrate_state = 0 := by
        rw [(calibLeave_frame t2 e).1, c2]; rfl
      rw [← hd] at c0
      simp only [calibPoints, b0, c0, a3b, b2, c2, hl]

/-- The values `calibrate_state` takes through a pass of the main loop that
starts in Idle. -/
theorem mainPoints_idle (s : State) (e : LoopEnv) (hs : s.calibrate_state = 0) :
    mainPoints s e = [0] ∨ mainPoints s e = [0, 0] ∨ mainPoints s e = [0, 1, 1] ∨
    mainPoints s e = [0, 1, 1, 2] ∨ mainPoints s e = [0, 1, 1, 2, 0, 0] := by
  cases hv : iScale s.min s.max s.Result with
  | none => left; simp only [mainPoints, hv, hs]
  | some v =>
    right
    obtain ⟨f1, f2, _⟩ := vDisplayNumber_frame (vInterrupt_disable s) (toUChar v)
    have f1b : (vDisplayNumber (vInterrupt_disable s) (toUChar v)).calibrate_state = 0 := by
      rw [f1]; exact hs
    cases hc : s.calibrate with
    | false =>
      left
      have f2b : (vDisplayNumber (vInterrupt_disable s) (toUChar v)).calibrate = false := by
        rw [f2]; exact hc
      have hreq : (mainRequest (vDisplayNumber (vInterrupt_disable s)
          (toUChar v))).calibrate_state = 0 := by
        simp [mainRequest, f2b, f1b]
      simp only [mainPoints, hv, hs, hreq, gt_iff_lt, lt_self_iff_false, if_false]
    | true =>
      right
      have f2b : (vDisplayNumber (vInterrupt_disable s) (toUChar v)).calibrate = true := by
        rw [f2]; exact hc
      have hreq : (mainRequest (vDisplayNumber (vInterrupt_disable s)
          (toUChar v))).calibrate_state = 1 := by
        simp [mainRequest, f2b, f1b]
      have hpos : (mainRequest (vDisplayNumber (vInterrupt_disable s)
          (toUChar v))).calibrate_state > 0 := by rw [hreq]; decide
      have hm : mainPoints s e = 0 :: 1 :: calibPoints
          (mainRequest (vDisplayNumber (vInterrupt_disable s) (toUChar v))) e.calib := by
        simp only [mainPoints, hv, hs, hreq, gt_iff_lt, Nat.lt_one_iff, if_true]
      rcases calibPoints_awaitingMin _ e.calib hreq with h | h | h
      · left; rw [hm, h]
      · right; left; rw [hm, h]
      · right; right; rw [hm, h]

/-- C13: in a pass of the main loop from a reachable state, the changes of
`calibrate_state` made by `main` and by `vCalibrate` are, in order, an
initial part of `0 → 1`, `1 → 2`, `2 → 0`; the change `1 → 0` never occurs. -/
theorem calibrate_state_changes (s : State) (e : LoopEnv) (h : Reachable s) :
    changes (mainPoints s e) <+: [(0, 1), (1, 2), (2, 0)] ∧
    (1, 0) ∉ changes (mainPoints s e) := by
  rcases mainPoints_idle s e (reachable_idle s h) with h | h | h | h | h <;>
    rw [h] <;> decide

/-- C13 on the pass after a pass that saw the button pressed: all three
changes occur, in order. -/
theorem calibrate_state_changes_witness :
    changes (mainPoints (vTimer3_ISR initState true) loopReleased)
        <+: [(0, 1), (1, 2), (2, 0)] ∧
    (1, 0) ∉ changes (mainPoints (vTimer3_ISR initState true) loopReleased) :=
  calibrate_state_changes (vTimer3_ISR initState true) loopReleased
    (Reachable.pass initState _ loopPressed Reachable.init (by decide))

/-! ## Display codes -/

/-- C15: on `0..9` the display mapping is injective, and a digit in `0..9`
has the code of the default branch (taken for every argument from 10 on)
exactly when it is 8. -/
theorem vDisplayNumber_injective (s : State) :
    (∀ m n : Nat, m ≤ 9 → n ≤ 9 →
      decCode (vDisplayNumber s m) = decCode (vDisplayNumber s n) → m = n) ∧
    (∀ n k : Nat, n ≤ 9 → 10 ≤ k →
      (decCode (vDisplayNumber s n) = decCode (vDisplayNumber s k) ↔ n = 8)) := by
  constructor
  · intro m n hm hn h
    interval_cases m <;> interval_cases n <;>
      first | rfl | (simp [decCode, vDisplayNumber] at h)
  · intro n k hn hk
    obtain ⟨j, rfl⟩ : ∃ j, k = j + 10 := ⟨k - 10, by omega⟩
    have hdef : decCode (vDisplayNumber s (j + 10)) = (false, false, false, true) := rfl
    rw [hdef]
    interval_cases n <;> simp [decCode, vDisplayNumber]

/-- C15 at the initial state: 3 and 5 have different codes, and 8 has the
code of the out-of-range argument 200. -/
theorem vDisplayNumber_injective_witness :
    decCode (vDisplayNumber initState 3) ≠ decCode (vDisplayNumber initState 5) ∧
    decCode (vDisplayNumber initState 8) = decCode (vDisplayNumber initState 200) :=
  ⟨fun h => absurd ((vDisplayNumber_injective initState).1 3 5 (by decide) (by decide) h)
      (by decide),
   ((vDisplayNumber_injective initState).2 8 200 (by decide) (by decide)).mpr rfl⟩

/-! ## The product cast by `iScale` -/

/-- Where the product `9 * (measure - min)` fits the 16-bit `int` (and the
span `max - min` does), the 16-bit computation of `iScale` is the
exact-integer one. -/
theorem iScale_eq_exact_of_fits (min max m : Int) (hlt : min < max)
    (hspan : max - min ≤ 32767) (hfit : isInt16 (9 * (iScaleMeasure max m - min))) :
    iScale min max m = iScaleExact min max m := by
  have hfit2 := hfit
  unfold isInt16 at hfit2
  have hd : wrap16 (max - min) = max - min := by unfold wrap16; omega
  have hd0 : max - min ≠ 0 := by omega
  have hx : wrap16 (iScaleMeasure max m - min) = iScaleMeasure max m - min := by
    unfold wrap16; omega
  have hp : wrap16 (9 * (iScaleMeasure max m - min)) = 9 * (iScaleMeasure max m - min) := by
    unfold wrap16; omega
  have hq := tdiv_bounds (9 * (iScaleMeasure max m - min)) (max - min) (by omega) hfit
  have hq2 : wrap16 ((9 * (iScaleMeasure max m - min)).tdiv (max - min))
      = (9 * (iScaleMeasure max m - min)).tdiv (max - min) := by
    unfold isInt16 at hq
    unfold wrap16; omega
  simp only [iScale, iScaleExact, iScaleProduct, hd, hx, hp, hq2, if_neg hd0]

/-- A range in `0..4095` whose span and whose `min` are at most 3640 keeps
the product of every measurement in `0..4095` inside the 16-bit `int`. -/
theorem iScaleProduct_fits_of_span (min max m : Int) (h0 : 0 ≤ min) (hlt : min < max)
    (hmax : max ≤ 4095) (hspan : max - min ≤ 3640) (hmin : min ≤ 3640)
    (hm0 : 0 ≤ m) (hm1 : m ≤ 4095) :
    iScaleProduct min max m = 9 * (iScaleMeasure max m - min) ∧
    isInt16 (iScaleProduct min max m) := by
  have hmeas : 0 ≤ iScaleMeasure max m ∧ iScaleMeasure max m ≤ max := by
    unfold iScaleMeasure
    split <;> omega
  have hx : wrap16 (iScaleMeasure max m - min) = iScaleMeasure max m - min := by
    unfold wrap16; omega
  unfold iScaleProduct isInt16
  rw [hx]
  exact ⟨rfl, by omega, by omega⟩

/-- C18: with the default range (`min = 610`, `max = 4095`) and a measurement
in `0..4095`, the product `9 * (measure - min)` cast by `iScale` lies in
`[-5490, 31365]`, so inside the 16-bit `int`, and the 16-bit computation
returns what the exact-integer computation returns. -/
theorem iScale_default_range_fits (m : Int) (h0 : 0 ≤ m) (h1 : m ≤ 4095) :
    iScaleProduct MIN_LIGHT MAX_LIGHT m = 9 * (iScaleMeasure MAX_LIGHT m - MIN_LIGHT) ∧
    -5490 ≤ iScaleProduct MIN_LIGHT MAX_LIGHT m ∧
    iScaleProduct MIN_LIGHT MAX_LIGHT m ≤ 31365 ∧
    isInt16 (iScaleProduct MIN_LIGHT MAX_LIGHT m) ∧
    iScale MIN_LIGHT MAX_LIGHT m = iScaleExact MIN_LIGHT MAX_LIGHT m := by
  obtain ⟨hp, hfit⟩ := iScaleProduct_fits_of_span MIN_LIGHT MAX_LIGHT m
    (by decide) (by decide) (by decide) (by decide) (by decide) h0 h1
  have hmeas : 0 ≤ iScaleMeasure MAX_LIGHT m ∧ iScaleMeasure MAX_LIGHT m ≤ 4095 := by
    unfold iScaleMeasure MAX_LIGHT
    split <;> omega
  have hmin : MIN_LIGHT = 610 := rfl
  refine ⟨hp, ?_, ?_, hfit, ?_⟩
  · rw [hp, hmin]; omega
  · rw [hp, hmin]; omega
  · apply iScale_eq_exact_of_fits MIN_LIGHT MAX_LIGHT m (by decide) (by decide)
    rw [← hp]
    exact hfit

/-- C18 at the two ends of the measurement range. -/
theorem iScale_default_range_fits_witness :
    iScaleProduct MIN_LIGHT MAX_LIGHT 0 = -5490 ∧
    iScaleProduct MIN_LIGHT MAX_LIGHT 4095 = 31365 ∧
    iScale MIN_LIGHT MAX_LIGHT 4095 = iScaleExact MIN_LIGHT MAX_LIGHT 4095 :=
  ⟨by
    have h := (iScale_default_range_fits 0 (by decide) (by decide)).1
    rw [h]; decide,
   by
    have h := (iScale_default_range_fits 4095 (by decide) (by decide)).1
    rw [h]; decide,
   (iScale_default_range_fits 4095 (by decide) (by decide)).2.2.2.2⟩

/-- C19 (code defect): ranges with `0 ≤ min < max ≤ 4095` and measurements in
`0..4095` exist for which the product does not fit the 16-bit `int`:
`min = 0`, `max = 4095`, measurement 4095 gives 36855, and `min = 4094`,
`max = 4095`, measurement 0 gives -36846; the 16-bit and the exact-integer
computations then return different results. -/
theorem iScaleProduct_overflows :
    iScaleProduct 0 4095 4095 = 36855 ∧ ¬ isInt16 (iScaleProduct 0 4095 4095) ∧
    iScale 0 4095 4095 = some 0 ∧ iScaleExact 0 4095 4095 = some 9 ∧
    iScaleProduct 4094 4095 0 = -36846 ∧ ¬ isInt16 (iScaleProduct 4094 4095 0) ∧
    iScale 4094 4095 0 = some 28690 ∧ iScaleExact 4094 4095 0 = some 0 := by
  decide

/-! ## Main loop: the calibration request -/

/-- The values `calibrate_state` takes through a run of `vCalibrate` entered
with state 1 during which the button is pressed in both waits. -/
theorem calibPoints_pressed (s : State) (e : CalibEnv) (w1 w2 : List Nat)
    (hs : s.calibrate_state = 1) (h1 : e.press1 = some w1) (h2 : e.press2 = some w2) :
    calibPoints s e = [1, 2, 0, 0] := by
  obtain ⟨a1, _, a3, _⟩ := calibEnter_spec s e
  have a3b : (calibEnter s e).calibrate_state = 1 := a3.trans hs
  obtain ⟨t1, b0, _, b2, b3, _⟩ := calibMin_spec (calibEnter s e) e w1 a3b a1 h1
  have hd : vDelay_ms t1 e.settle2 = runADC t1 e.settle2 := by
    simp only [vDelay_ms, service, b3, if_true]
  obtain ⟨t2, c0, _, c2, _⟩ :=
    calibMax_spec (runADC t1 e.settle2) e w2 (by simp [b2]) (by simp [b3]) h2
  have hl : (calibLeave t2 e).calibrate_state = 0 := by
    rw [(calibLeave_frame t2 e).1, c2]; rfl
  rw [← hd] at c0
  simp only [calibPoints, b0, c0, a3b, b2, c2, hl]

/-- C9 (amended): from Idle (`calibrate_state = 0`, `max - min` nonzero so
that `iScale` is defined), a pass that finds the request flag clear returns
without calling `vCalibrate`, leaving `min` and `max` alone; a pass that
finds it set once takes `calibrate_state` to 1 and calls `vCalibrate` in that
same pass, and, the button being pressed in both waits, `calibrate_state`
goes through 0, 1, 2, 0 within the pass, which returns in Idle. -/
theorem mainLoop_request (s : State) (e : LoopEnv) (hs : s.calibrate_state = 0)
    (hd : wrap16 (s.max - s.min) ≠ 0) :
    (s.calibrate = false →
      ∃ t, mainLoop s e = some t ∧ t.calibrations = s.calibrations ∧
        t.calibrate_state = 0 ∧ t.min = s.min ∧ t.max = s.max) ∧
    (s.calibrate = true → ∀ w1 w2, e.calib.press1 = some w1 → e.calib.press2 = some w2 →
      ∃ t, mainLoop s e = some t ∧ t.calibrations = s.calibrations + 1 ∧
        t.calibrate_state = 0 ∧ mainPoints s e = [0, 1, 1, 2, 0, 0]) := by
  obtain ⟨v, hv⟩ : ∃ v, iScale s.min s.max s.Result = some v := by
    simp only [iScale, if_neg hd]
    exact ⟨_, rfl⟩
  obtain ⟨f1, f2, f3, f4, f5, f6⟩ := vDisplayNumber_frame (vInterrupt_disable s) (toUChar v)
  constructor
  · intro hc
    have hreq : mainRequest (vDisplayNumber (vInterrupt_disable s) (toUChar v))
        = vDisplayNumber (vInterrupt_disable s) (toUChar v) := by
      have : (vDisplayNumber (vInterrupt_disable s) (toUChar v)).calibrate = false := by
        rw [f2]; exact hc
      simp [mainRequest, this]
    have hcal : mainCalibrate (vDisplayNumber (vInterrupt_disable s) (toUChar v)) e.calib
        = some (vDisplayNumber (vInterrupt_disable s) (toUChar v)) := by
      have : (vDisplayNumber (vInterrupt_disable s) (toUChar v)).calibrate_state = 0 := by
        rw [f1]; exact hs
      simp [mainCalibrate, this]
    obtain ⟨g1, g2, g3, g4⟩ :=
      mainTail_frame (vDisplayNumber (vInterrupt_disable s) (toUChar v)) e
    refine ⟨_, by rw [mainLoop_eq s e v hv, hreq, hcal]; rfl, ?_, ?_, ?_, ?_⟩
    · rw [g2, f3]; rfl
    · rw [g1, f1]; exact hs
    · rw [g3, f4]; rfl
    · rw [g4, f5]; rfl
  · intro hc w1 w2 h1 h2
    have hc2 : (vDisplayNumber (vInterrupt_disable s) (toUChar v)).calibrate = true := by
      rw [f2]; exact hc
    have hst : (vDisplayNumber (vInterrupt_disable s) (toUChar v)).calibrate_state = 0 := by
      rw [f1]; exact hs
    have hreq : mainRequest (vDisplayNumber (vInterrupt_disable s) (toUChar v))
        = { vDisplayNumber (vInterrupt_disable s) (toUChar v) with calibrate_state := 1 } := by
      simp [mainRequest, hc2, hst]
    obtain ⟨t, ht, _, _, tst, tcal, _⟩ := vCalibrate_run
      { vDisplayNumber (vInterrupt_disable s) (toUChar v) with calibrate_state := 1 }
      e.calib w1 w2 rfl h1 h2
    have hcal : mainCalibrate
        { vDisplayNumber (vInterrupt_disable s) (toUChar v) with calibrate_state := 1 } e.calib
        = some { t with calibrate := false } := by
      simp [mainCalibrate, ht]
    obtain ⟨g1, g2, g3, g4⟩ := mainTail_frame { t with calibrate := false } e
    have hpts : calibPoints
        { vDisplayNumber (vInterrupt_disable s) (toUChar v) with calibrate_state := 1 } e.calib
        = [1, 2, 0, 0] := calibPoints_pressed _ e.calib w1 w2 rfl h1 h2
    refine ⟨_, by rw [mainLoop_eq s e v hv, hreq, hcal]; rfl, ?_, ?_, ?_⟩
    · rw [g2]
      show t.calibrations = _
      rw [tcal]
      show (vDisplayNumber (vInterrupt_disable s) (toUChar v)).calibrations + 1 = _
      rw [f3]; rfl
    · rw [g1]; exact tst
    · simp only [mainPoints, hv, hreq, hs, hpts]
      rfl

/-- C9 (amended) at the initial state with the request flag set, and at the
initial state itself. -/
theorem mainLoop_request_witness :
    (mainLoop initState loopReleased).map (fun t => t.calibrations) = some 0 ∧
    (mainLoop (vTimer3_ISR initState true) loopReleased).map (fun t => t.calibrations)
      = some 1 := by
  have hd : wrap16 (initState.max - initState.min) ≠ 0 := by decide
  constructor
  · obtain ⟨t, h, hc, _⟩ := (mainLoop_request initState loopReleased rfl hd).1 rfl
    rw [h, Option.map_some', hc]; rfl
  · obtain ⟨t, h, hc, _⟩ :=
      (mainLoop_request (vTimer3_ISR initState true) loopReleased rfl hd).2 rfl [] [] rfl rfl
    rw [h, Option.map_some', hc]; rfl

end LightSensor
